import Mathlib

/-!
# PWM sysfs wrapper (`src/src/pwm.c`, `src/src/pwm.h`)

A shallow embedding of the PWM channel wrapper.  The operating system (the
"collaborator": `stat`, `open`, `write`, `read`, `close`, `usleep`, `strerror_r`)
is an arbitrary deterministic state machine over a state type `σ`; the C code is
translated function by function into explicit state passing over `Sys σ`, which
holds the collaborator state, the C global `errno`, and the log of the calls
issued so far.

Conventions
* `unsigned int` values are `Nat`, `int` values are `Int`; the conversions that
  `printf` / `scanf` perform reduce explicitly modulo `2^32`.
* Byte buffers are `List Char`; paths and messages are `String`.
* A pointer that may be `NULL` is an `Option`: `none` is `NULL`, `some v` is a
  location currently holding `v`.
-/

namespace Pwm

/-! ## Constants (`pwm.c` 15-19, `pwm.h` 10-18, Linux `errno.h`) -/

def P_PATH_MAX : Nat := 256
/-- Delay between checks for a successful export, in microseconds (100 ms). -/
def PWM_EXPORT_STAT_DELAY : Nat := 100000
/-- Number of checks for a successful export. -/
def PWM_EXPORT_STAT_RETRIES : Nat := 10

def PWM_ERROR_EXPORT : Int := -1
def PWM_ERROR_SET_ENABLE : Int := -2
def PWM_ERROR_SET_DUTY : Int := -3
def PWM_ERROR_SET_PERIOD : Int := -4
def PWM_ERROR_GET_ENABLE : Int := -5
def PWM_ERROR_GET_DUTY : Int := -6
def PWM_ERROR_GET_PERIOD : Int := -7

/-- Linux value of `ENOENT`. -/
def ENOENT : Int := 2
/-- Linux value of `EINTR`. -/
def EINTR : Int := 4

/-- The terminator byte. -/
def NUL : Char := Char.ofNat 0

/-! ## Data model (`pwm.h` 20-28) -/

structure pwm_error where
  c_errno : Int
  errmsg : String
  deriving DecidableEq

structure pwm_handle where
  pwm_chip_id : Nat
  pwm_id : Nat
  error : pwm_error
  deriving DecidableEq

/-! ## The collaborator -/

inductive OFlag
  | O_RDONLY
  | O_WRONLY
  deriving DecidableEq

/-- One call issued to the collaborator, with its arguments. -/
inductive Call
  | stat (path : String)
  | open_ (path : String) (flags : OFlag)
  | write (fd : Int) (bytes : List Char)
  | read (fd : Int) (count : Nat)
  | close (fd : Int)
  | usleep (usec : Nat)
  deriving DecidableEq

/-- Outcome of a call: the collaborator's next state, the value returned, and the
value of `errno` once the call is over. -/
structure Ret (σ : Type) where
  st : σ
  ret : Int
  err : Int

/-- What `read` hands back: either the bytes of the node, or a negative return
value `-(n+1)` (POSIX uses `-1`, that is `n = 0`). -/
inductive ReadRes
  | data (bytes : List Char)
  | error (n : Nat)
  deriving DecidableEq

/-- Value returned by `read(fd, buf, count)`. -/
def ReadRes.ret (count : Nat) : ReadRes → Int
  | .data bytes => ((bytes.take count).length : Nat)
  | .error n => Int.negSucc n

/-- Bytes that `read(fd, buf, count)` stored at the start of `buf`. -/
def ReadRes.stored (count : Nat) : ReadRes → List Char
  | .data bytes => bytes.take count
  | .error _ => []

structure ReadRet (σ : Type) where
  st : σ
  res : ReadRes
  err : Int

/-- The operating system as seen by `pwm.c`. `strerror c` is the text that
`strerror_r(c, buf, 64)` leaves in `buf`. -/
structure Collab (σ : Type) where
  stat : σ → String → Ret σ
  open_ : σ → String → OFlag → Ret σ
  write : σ → Int → List Char → Ret σ
  read : σ → Int → Nat → ReadRet σ
  close : σ → Int → Ret σ
  usleep : σ → Nat → σ
  strerror : Int → String

/-- Machine state around the C code: collaborator state, `errno`, call log. -/
structure Sys (σ : Type) where
  st : σ
  errno : Int
  trace : List Call

variable {σ : Type}

def sys_stat (c : Collab σ) (sys : Sys σ) (path : String) : Sys σ × Int :=
  let r := c.stat sys.st path
  (⟨r.st, r.err, sys.trace ++ [Call.stat path]⟩, r.ret)

def sys_open (c : Collab σ) (sys : Sys σ) (path : String) (flags : OFlag) : Sys σ × Int :=
  let r := c.open_ sys.st path flags
  (⟨r.st, r.err, sys.trace ++ [Call.open_ path flags]⟩, r.ret)

def sys_write (c : Collab σ) (sys : Sys σ) (fd : Int) (bytes : List Char) : Sys σ × Int :=
  let r := c.write sys.st fd bytes
  (⟨r.st, r.err, sys.trace ++ [Call.write fd bytes]⟩, r.ret)

def sys_read (c : Collab σ) (sys : Sys σ) (fd : Int) (count : Nat) : Sys σ × ReadRes :=
  let r := c.read sys.st fd count
  (⟨r.st, r.err, sys.trace ++ [Call.read fd count]⟩, r.res)

def sys_close (c : Collab σ) (sys : Sys σ) (fd : Int) : Sys σ × Int :=
  let r := c.close sys.st fd
  (⟨r.st, r.err, sys.trace ++ [Call.close fd]⟩, r.ret)

def sys_usleep (c : Collab σ) (sys : Sys σ) (usec : Nat) : Sys σ :=
  ⟨c.usleep sys.st usec, sys.errno, sys.trace ++ [Call.usleep usec]⟩

/-! ## libc text conversions -/

/-- Text `snprintf(buf, size, ...)` leaves in `buf` when the untruncated output is
`s` (at most `size - 1` characters, then the terminator). -/
def snprintf (size : Nat) (s : String) : String := ⟨s.data.take (size - 1)⟩

def digitChar (d : Nat) : Char := Char.ofNat (d + 48)

/-- Decimal digits of `n`, most significant first, no leading zeros. -/
def natDigits : Nat → Nat → List Char
  | 0, _ => []
  | fuel + 1, n =>
    if n < 10 then [digitChar n] else natDigits fuel (n / 10) ++ [digitChar (n % 10)]

def natStr (n : Nat) : String := ⟨natDigits (n + 1) n⟩

/-- Value of a C `int` holding the low 32 bits of `i` (two's complement). -/
def toInt32 (i : Int) : Int := (i + 2147483648) % 4294967296 - 2147483648

/-- Value of a C `long` after `strtol` saturation. -/
def clampLong (i : Int) : Int :=
  if i < -9223372036854775808 then -9223372036854775808
  else if 9223372036854775807 < i then 9223372036854775807
  else i

/-- Output of the conversion `%u` for a 32-bit argument. -/
def fmt_u (n : Nat) : String := natStr (n % 4294967296)

/-- Output of the conversion `%d` for a 32-bit argument (an `unsigned int`
argument is printed as the `int` with the same bits). -/
def fmt_d (i : Int) : String :=
  if toInt32 i < 0 then "-" ++ natStr (-(toInt32 i)).toNat else natStr (toInt32 i).toNat

def isspace (ch : Char) : Bool :=
  ch.toNat = 32 || (9 ≤ ch.toNat && ch.toNat ≤ 13)

def isdigit (ch : Char) : Bool := 48 ≤ ch.toNat && ch.toNat ≤ 57

/-- The C string held by a buffer: the bytes before the first terminator. -/
def cstr (buf : List Char) : List Char := buf.takeWhile (fun ch => ch != NUL)

def parseDigits (ds : List Char) : Nat :=
  ds.foldl (fun acc ch => acc * 10 + (ch.toNat - 48)) 0

/-- The optional sign in front of the digits of a `%d` conversion: whether it
is a minus sign, and the input after it. -/
def scanSign : List Char → Bool × List Char
  | [] => (false, [])
  | ch :: t => if ch = '-' then (true, t) else if ch = '+' then (false, t) else (false, ch :: t)

/-- Result of `sscanf(buf, "%d\n", &out)`: `some v` when it returns 1 and stores
`v`, `none` when it returns 0 or `EOF` and stores nothing.  Leading white space
is skipped, an optional sign and at least one digit are required; the value goes
through `strtol` and is then stored into an `int` (glibc). -/
def sscanf_d (buf : List Char) : Option Int :=
  let s := (cstr buf).dropWhile isspace
  let signed := scanSign s
  let ds := signed.2.takeWhile isdigit
  if ds = [] then none
  else
    let v : Int := if signed.1 then -(parseDigits ds : Int) else (parseDigits ds : Int)
    some (toInt32 (clampLong v))

/-! ## `_pwm_error` (`pwm.c` 21-38) -/

def _pwm_error (c : Collab σ) (pwm : pwm_handle) (code : Int) (c_errno : Int) (msg : String) :
    pwm_handle × Int :=
  let m := snprintf 96 msg
  let m :=
    if c_errno ≠ 0 then
      snprintf 96 (m ++ ": " ++ snprintf 64 (c.strerror c_errno) ++ " [errno " ++ fmt_d c_errno ++ "]")
    else m
  ({ pwm with error := ⟨c_errno, m⟩ }, code)

/-- What an operation hands back: machine state, handle, return value. -/
structure Out (σ : Type) where
  sys : Sys σ
  pwm : pwm_handle
  ret : Int

/-- The statement `return _pwm_error(pwm, code, c_errno, msg)`. -/
def fail (c : Collab σ) (sys : Sys σ) (pwm : pwm_handle) (code : Int) (c_errno : Int)
    (msg : String) : Out σ :=
  let e := _pwm_error c pwm code c_errno msg
  ⟨sys, e.1, e.2⟩

/-! ## `pwm_open` (`pwm.c` 40-90) -/

/-- How the polling loop of `pwm_open` ends: the `for` statement is left (by
`break` or because its condition is false) with this `retry_count`, or the
function returns from inside the loop. -/
inductive PollExit
  | left (retry_count : Nat)
  | fatal
  deriving DecidableEq

/-- The loop `for (...; retry_count < PWM_EXPORT_STAT_RETRIES; retry_count++)` of
`pwm_open`; `n` is `PWM_EXPORT_STAT_RETRIES - retry_count`. -/
def poll (c : Collab σ) (pwm_path : String) : Nat → Nat → Sys σ → Sys σ × PollExit
  | 0, retry_count, sys => (sys, PollExit.left retry_count)
  | n + 1, retry_count, sys =>
    let s := sys_stat c sys pwm_path
    if s.2 = 0 then (s.1, PollExit.left retry_count)
    else if s.2 < 0 ∧ s.1.errno ≠ ENOENT then (s.1, PollExit.fatal)
    else poll c pwm_path n (retry_count + 1) (sys_usleep c s.1 PWM_EXPORT_STAT_DELAY)

def pwm_open (c : Collab σ) (sys : Sys σ) (pwm : pwm_handle) (pwm_chip_id pwm_id : Nat) : Out σ :=
  let s1 := sys_stat c sys "/sys/class/pwm"
  if s1.2 < 0 then
    fail c s1.1 pwm PWM_ERROR_EXPORT s1.1.errno "PWM sysfs not enabled in kernel"
  else
    let pwm_path := snprintf P_PATH_MAX ("/sys/class/pwm/pwmchip" ++ fmt_d pwm_chip_id)
    let s2 := sys_stat c s1.1 pwm_path
    if s2.2 < 0 then
      fail c s2.1 pwm PWM_ERROR_EXPORT s2.1.errno "PWM chip id is invalid"
    else
      let pwm_path := snprintf P_PATH_MAX
        ("/sys/class/pwm/pwmchip" ++ fmt_d pwm_chip_id ++ "/pwm" ++ fmt_d pwm_id)
      let s3 := sys_stat c s2.1 pwm_path
      let done : Sys σ → Out σ := fun s => ⟨s, ⟨pwm_chip_id, pwm_id, ⟨0, ""⟩⟩, 0⟩
      if s3.2 < 0 then
        let pwm_path := snprintf P_PATH_MAX
          ("/sys/class/pwm/pwmchip" ++ fmt_d pwm_chip_id ++ "/export")
        let buf := snprintf 16 (fmt_u pwm_id)
        let o := sys_open c s3.1 pwm_path OFlag.O_WRONLY
        if o.2 < 0 then
          fail c o.1 pwm PWM_ERROR_EXPORT o.1.errno "Exporting PWM: opening 'export'"
        else
          let w := sys_write c o.1 o.2 (buf.data ++ [NUL])
          if w.2 < 0 then
            let errsv := w.1.errno
            let cl := sys_close c w.1 o.2
            fail c cl.1 pwm PWM_ERROR_EXPORT errsv "Exporting PWM: writing 'export'"
          else
            let cl := sys_close c w.1 o.2
            if cl.2 < 0 then
              fail c cl.1 pwm PWM_ERROR_EXPORT cl.1.errno "Exporting PWM: closing 'export'"
            else
              let pwm_path := snprintf P_PATH_MAX
                ("/sys/class/pwm/pwmchip" ++ fmt_d pwm_chip_id ++ "/pwm" ++ fmt_d pwm_id)
              let p := poll c pwm_path PWM_EXPORT_STAT_RETRIES 0 cl.1
              match p.2 with
              | PollExit.fatal =>
                fail c p.1 pwm PWM_ERROR_EXPORT p.1.errno
                  ("Exporting PWM: stat 'pwm" ++ fmt_d pwm_id ++ "/'")
              | PollExit.left retry_count =>
                if retry_count = PWM_EXPORT_STAT_RETRIES then
                  fail c p.1 pwm PWM_ERROR_EXPORT 0
                    ("Exporting PWM: waiting for 'pwmchi" ++ fmt_d pwm_chip_id ++ "/pwm"
                      ++ fmt_d pwm_id ++ "' timed out")
                else done p.1
      else done s3.1

/-! ## Setters (`pwm.c` 125-189) -/

def pwm_set_enable (c : Collab σ) (sys : Sys σ) (pwm : pwm_handle) (enable : Bool) : Out σ :=
  let pwm_path := snprintf P_PATH_MAX
    ("/sys/class/pwm/pwmchip" ++ fmt_d pwm.pwm_chip_id ++ "/pwm" ++ fmt_d pwm.pwm_id ++ "/enable")
  let o := sys_open c sys pwm_path OFlag.O_WRONLY
  if o.2 < 0 then
    fail c o.1 pwm PWM_ERROR_SET_ENABLE o.1.errno "Opening PWM 'enable'"
  else
    let buf := snprintf 2 (fmt_d (if enable then 1 else 0))
    let w := sys_write c o.1 o.2 (buf.data ++ [NUL])
    if w.2 < 0 then
      let errsv := w.1.errno
      let cl := sys_close c w.1 o.2
      fail c cl.1 pwm PWM_ERROR_SET_ENABLE errsv "Writing PWM 'enable'"
    else
      let cl := sys_close c w.1 o.2
      if cl.2 < 0 then
        fail c cl.1 pwm PWM_ERROR_SET_ENABLE cl.1.errno "Closing PWM 'enable'"
      else ⟨cl.1, pwm, 0⟩

def pwm_set_duty (c : Collab σ) (sys : Sys σ) (pwm : pwm_handle) (duty_ns : Int) : Out σ :=
  let pwm_path := snprintf P_PATH_MAX
    ("/sys/class/pwm/pwmchip" ++ fmt_d pwm.pwm_chip_id ++ "/pwm" ++ fmt_d pwm.pwm_id
      ++ "/duty_cycle")
  let o := sys_open c sys pwm_path OFlag.O_WRONLY
  if o.2 < 0 then
    fail c o.1 pwm PWM_ERROR_SET_DUTY o.1.errno "Opening PWM 'duty_cycle'"
  else
    let buf := snprintf 32 (fmt_d duty_ns)
    let w := sys_write c o.1 o.2 (buf.data ++ [NUL])
    if w.2 < 0 then
      let errsv := w.1.errno
      let cl := sys_close c w.1 o.2
      fail c cl.1 pwm PWM_ERROR_SET_DUTY errsv "Writing PWM 'duty_cycle'"
    else
      let cl := sys_close c w.1 o.2
      if cl.2 < 0 then
        fail c cl.1 pwm PWM_ERROR_SET_DUTY cl.1.errno "Closing PWM 'duty_cycle'"
      else ⟨cl.1, pwm, 0⟩

def pwm_set_period (c : Collab σ) (sys : Sys σ) (pwm : pwm_handle) (period_ns : Int) : Out σ :=
  let pwm_path := snprintf P_PATH_MAX
    ("/sys/class/pwm/pwmchip" ++ fmt_d pwm.pwm_chip_id ++ "/pwm" ++ fmt_d pwm.pwm_id ++ "/period")
  let o := sys_open c sys pwm_path OFlag.O_WRONLY
  if o.2 < 0 then
    fail c o.1 pwm PWM_ERROR_SET_PERIOD o.1.errno "Opening PWM 'period'"
  else
    let buf := snprintf 32 (fmt_d period_ns)
    let w := sys_write c o.1 o.2 (buf.data ++ [NUL])
    if w.2 < 0 then
      let errsv := w.1.errno
      let cl := sys_close c w.1 o.2
      fail c cl.1 pwm PWM_ERROR_SET_PERIOD errsv "Writing PWM 'period'"
    else
      let cl := sys_close c w.1 o.2
      if cl.2 < 0 then
        fail c cl.1 pwm PWM_ERROR_SET_PERIOD cl.1.errno "Closing PWM 'period'"
      else ⟨cl.1, pwm, 0⟩

/-! ## Getters (`pwm.c` 191-288) -/

/-- Content of the local `char buf[2]` of `pwm_get_enable` once `read` has stored
`stored` at its start; `junk` is the indeterminate content it had before. -/
def fill2 (junk : Char × Char) (stored : List Char) : Char × Char :=
  match stored with
  | [] => junk
  | [b0] => (b0, junk.2)
  | b0 :: b1 :: _ => (b0, b1)

/-- The function `pwm_get_enable`.  `junk` is the indeterminate initial content of
the local `buf`; `enable` is the output location; the second component of the
result is that location afterwards. -/
def pwm_get_enable (c : Collab σ) (junk : Char × Char) (sys : Sys σ) (pwm : pwm_handle)
    (enable : Option Bool) : Out σ × Option Bool :=
  match enable with
  | none => (fail c sys pwm PWM_ERROR_GET_DUTY 0 "Invlid parameter", none)
  | some _ =>
    let pwm_path := snprintf P_PATH_MAX
      ("/sys/class/pwm/pwmchip" ++ fmt_d pwm.pwm_chip_id ++ "/pwm" ++ fmt_d pwm.pwm_id
        ++ "/enable")
    let o := sys_open c sys pwm_path OFlag.O_RDONLY
    if o.2 < 0 then
      (fail c o.1 pwm PWM_ERROR_GET_ENABLE o.1.errno "Opening PWM 'enable'", enable)
    else
      let r := sys_read c o.1 o.2 2
      if r.2.ret 2 < 0 then
        let errsv := r.1.errno
        let cl := sys_close c r.1 o.2
        (fail c cl.1 pwm PWM_ERROR_GET_ENABLE errsv "Reading PWM 'enable'", enable)
      else
        let buf := fill2 junk (r.2.stored 2)
        let cl := sys_close c r.1 o.2
        if cl.2 < 0 then
          (fail c cl.1 pwm PWM_ERROR_GET_ENABLE cl.1.errno "Closing PWM 'enable'", enable)
        else if buf.1 = '0' then (⟨cl.1, pwm, 0⟩, some false)
        else if buf.2 = '1' then (⟨cl.1, pwm, 0⟩, some true)
        else (fail c cl.1 pwm PWM_ERROR_GET_ENABLE 0 "Unkown PWM enable", enable)

/-- The loop `do { ret = read(fd, buf, count); } while (ret < 0 && ret == -EINTR);`
of `pwm_get_duty` and `pwm_get_period`.  `none`: the loop is still running after
`fuel` reads. -/
def read_retry (c : Collab σ) (fd : Int) (count : Nat) : Nat → Sys σ → Option (Sys σ × ReadRes)
  | 0, _ => none
  | fuel + 1, sys =>
    let r := sys_read c sys fd count
    if r.2.ret count < 0 ∧ r.2.ret count = -EINTR then read_retry c fd count fuel r.1
    else some r

def pwm_get_duty (fuel : Nat) (c : Collab σ) (sys : Sys σ) (pwm : pwm_handle)
    (duty_ns : Option Int) : Option (Out σ × Option Int) :=
  match duty_ns with
  | none => some (fail c sys pwm PWM_ERROR_GET_DUTY 0 "Invlid parameter", none)
  | some _ =>
    let pwm_path := snprintf P_PATH_MAX
      ("/sys/class/pwm/pwmchip" ++ fmt_u pwm.pwm_chip_id ++ "/pwm" ++ fmt_u pwm.pwm_id
        ++ "/duty_cycle")
    let o := sys_open c sys pwm_path OFlag.O_RDONLY
    if o.2 < 0 then
      some (fail c o.1 pwm PWM_ERROR_GET_DUTY o.1.errno "Opening PWM 'duty_cycle'", duty_ns)
    else
      match read_retry c o.2 31 fuel o.1 with
      | none => none
      | some r =>
        if r.2.ret 31 < 0 then
          let errsv := r.1.errno
          let cl := sys_close c r.1 o.2
          some (fail c cl.1 pwm PWM_ERROR_GET_DUTY errsv "Reading PWM 'duty_cycle'", duty_ns)
        else
          let cl := sys_close c r.1 o.2
          if cl.2 < 0 then
            some (fail c cl.1 pwm PWM_ERROR_GET_DUTY cl.1.errno "Closing PWM 'duty_cycle'",
              duty_ns)
          else
            let buf := r.2.stored 31 ++ [NUL]
            match sscanf_d buf with
            | some v => some (⟨cl.1, pwm, 0⟩, some v)
            | none =>
              some (fail c cl.1 pwm PWM_ERROR_GET_DUTY 0 "Getting PWM 'duty_cycle' invalid",
                duty_ns)

def pwm_get_period (fuel : Nat) (c : Collab σ) (sys : Sys σ) (pwm : pwm_handle)
    (period_ns : Option Int) : Option (Out σ × Option Int) :=
  match period_ns with
  | none => some (fail c sys pwm PWM_ERROR_GET_PERIOD 0 "Invlid parameter", none)
  | some _ =>
    let pwm_path := snprintf P_PATH_MAX
      ("/sys/class/pwm/pwmchip" ++ fmt_u pwm.pwm_chip_id ++ "/pwm" ++ fmt_u pwm.pwm_id
        ++ "/period")
    let o := sys_open c sys pwm_path OFlag.O_RDONLY
    if o.2 < 0 then
      some (fail c o.1 pwm PWM_ERROR_GET_PERIOD o.1.errno "Opening PWM 'period'", period_ns)
    else
      match read_retry c o.2 31 fuel o.1 with
      | none => none
      | some r =>
        if r.2.ret 31 < 0 then
          let errsv := r.1.errno
          let cl := sys_close c r.1 o.2
          some (fail c cl.1 pwm PWM_ERROR_GET_PERIOD errsv "Reading PWM 'period'", period_ns)
        else
          let cl := sys_close c r.1 o.2
          if cl.2 < 0 then
            some (fail c cl.1 pwm PWM_ERROR_GET_PERIOD cl.1.errno "Closing PWM 'period'",
              period_ns)
          else
            let buf := r.2.stored 31 ++ [NUL]
            match sscanf_d buf with
            | some v => some (⟨cl.1, pwm, 0⟩, some v)
            | none =>
              some (fail c cl.1 pwm PWM_ERROR_GET_PERIOD 0 "Getting PWM 'period' invalid",
                period_ns)

/-! ## `pwm_config` (`pwm.c` 92-123) -/

/-- The function `pwm_config`.  `junk` and `old` are the indeterminate initial
contents of the local `buf` of `pwm_get_enable` and of the local `old_enable`. -/
def pwm_config (c : Collab σ) (junk : Char × Char) (old : Bool) (sys : Sys σ) (pwm : pwm_handle)
    (period_ns duty_ns : Int) (enable : Bool) : Out σ :=
  let g := pwm_get_enable c junk sys pwm (some old)
  if g.1.ret < 0 then g.1
  else
    let old_enable := g.2.getD old
    let d : Out σ := if old_enable then pwm_set_enable c g.1.sys g.1.pwm false else g.1
    if d.ret < 0 then d
    else
      let p := pwm_set_period c d.sys d.pwm period_ns
      if p.ret < 0 then p
      else
        let q := pwm_set_duty c p.sys p.pwm duty_ns
        if q.ret < 0 then q
        else if enable then
          let e := pwm_set_enable c q.sys q.pwm enable
          if e.ret < 0 then e else ⟨e.sys, e.pwm, 0⟩
        else ⟨q.sys, q.pwm, 0⟩

/-! ## `pwm_tostring` (`pwm.c` 290-301) -/

/-- Untruncated output of the format string of `pwm_tostring`. -/
def summary (pwm_chip_id pwm_id : Nat) (duty_ns period_ns : Int) (enable : Bool) : String :=
  "PWM pwmchip" ++ fmt_u pwm_chip_id ++ "/pwm" ++ fmt_u pwm_id ++ " (duty_ns=" ++ fmt_d duty_ns
    ++ ", period_ns=" ++ fmt_d period_ns ++ ", enable=" ++ fmt_d (if enable then 1 else 0) ++ ")"

/-- The function `pwm_tostring`.  `str` is the previous content of the caller's
buffer of `len` bytes; the result carries the value returned and the content of
the buffer afterwards. -/
def pwm_tostring (fuel : Nat) (c : Collab σ) (junk : Char × Char) (sys : Sys σ)
    (pwm : pwm_handle) (str : String) (len : Nat) : Option (Out σ × String) :=
  let g := pwm_get_enable c junk sys pwm (some false)
  let enable := g.2.getD false
  match pwm_get_duty fuel c g.1.sys g.1.pwm (some (-1)) with
  | none => none
  | some d =>
    let duty_ns := d.2.getD (-1)
    match pwm_get_period fuel c d.1.sys d.1.pwm (some (-1)) with
    | none => none
    | some p =>
      let period_ns := p.2.getD (-1)
      let text := summary p.1.pwm.pwm_chip_id p.1.pwm.pwm_id duty_ns period_ns enable
      some (⟨p.1.sys, p.1.pwm, (text.length : Nat)⟩, if len = 0 then str else snprintf len text)

/-! ## Error accessors (`pwm.c` 303-309) -/

def pwm_errno (pwm : pwm_handle) : Int := pwm.error.c_errno

def pwm_errmsg (pwm : pwm_handle) : String := pwm.error.errmsg

/-! ## Paths and written bytes, as the functions above compute them -/

def rootPath : String := "/sys/class/pwm"

def chipPath (pwm_chip_id : Nat) : String :=
  snprintf P_PATH_MAX ("/sys/class/pwm/pwmchip" ++ fmt_d pwm_chip_id)

def channelPath (pwm_chip_id pwm_id : Nat) : String :=
  snprintf P_PATH_MAX ("/sys/class/pwm/pwmchip" ++ fmt_d pwm_chip_id ++ "/pwm" ++ fmt_d pwm_id)

def exportPath (pwm_chip_id : Nat) : String :=
  snprintf P_PATH_MAX ("/sys/class/pwm/pwmchip" ++ fmt_d pwm_chip_id ++ "/export")

/-- Bytes `pwm_open` writes to the export node. -/
def exportBytes (pwm_id : Nat) : List Char := (snprintf 16 (fmt_u pwm_id)).data ++ [NUL]

/-- Path of the `enable` node, as `pwm_set_enable` and `pwm_get_enable` format it. -/
def enableNode (pwm : pwm_handle) : String :=
  snprintf P_PATH_MAX
    ("/sys/class/pwm/pwmchip" ++ fmt_d pwm.pwm_chip_id ++ "/pwm" ++ fmt_d pwm.pwm_id ++ "/enable")

/-- Path of the `duty_cycle` node, as `pwm_set_duty` formats it. -/
def dutyNode (pwm : pwm_handle) : String :=
  snprintf P_PATH_MAX
    ("/sys/class/pwm/pwmchip" ++ fmt_d pwm.pwm_chip_id ++ "/pwm" ++ fmt_d pwm.pwm_id
      ++ "/duty_cycle")

/-- Path of the `period` node, as `pwm_set_period` formats it. -/
def periodNode (pwm : pwm_handle) : String :=
  snprintf P_PATH_MAX
    ("/sys/class/pwm/pwmchip" ++ fmt_d pwm.pwm_chip_id ++ "/pwm" ++ fmt_d pwm.pwm_id ++ "/period")

/-- Path of the `duty_cycle` node, as `pwm_get_duty` formats it. -/
def dutyNodeU (pwm : pwm_handle) : String :=
  snprintf P_PATH_MAX
    ("/sys/class/pwm/pwmchip" ++ fmt_u pwm.pwm_chip_id ++ "/pwm" ++ fmt_u pwm.pwm_id
      ++ "/duty_cycle")

/-- Path of the `period` node, as `pwm_get_period` formats it. -/
def periodNodeU (pwm : pwm_handle) : String :=
  snprintf P_PATH_MAX
    ("/sys/class/pwm/pwmchip" ++ fmt_u pwm.pwm_chip_id ++ "/pwm" ++ fmt_u pwm.pwm_id
      ++ "/period")

/-- Bytes `pwm_set_enable` writes. -/
def enableBytes (enable : Bool) : List Char :=
  (snprintf 2 (fmt_d (if enable then 1 else 0))).data ++ [NUL]

/-- Bytes `pwm_set_duty` and `pwm_set_period` write. -/
def valueBytes (v : Int) : List Char := (snprintf 32 (fmt_d v)).data ++ [NUL]

/-- A call of one of the three setters. -/
inductive Setter
  | enable (b : Bool)
  | duty (duty_ns : Int)
  | period (period_ns : Int)

def Setter.run (c : Collab σ) (sys : Sys σ) (pwm : pwm_handle) : Setter → Out σ
  | .enable b => pwm_set_enable c sys pwm b
  | .duty v => pwm_set_duty c sys pwm v
  | .period v => pwm_set_period c sys pwm v

def Setter.node (pwm : pwm_handle) : Setter → String
  | .enable _ => enableNode pwm
  | .duty _ => dutyNode pwm
  | .period _ => periodNode pwm

def Setter.bytes : Setter → List Char
  | .enable b => enableBytes b
  | .duty v => valueBytes v
  | .period v => valueBytes v

/-- The error code of `pwm.h` that belongs to the setter. -/
def Setter.kind : Setter → Int
  | .enable _ => PWM_ERROR_SET_ENABLE
  | .duty _ => PWM_ERROR_SET_DUTY
  | .period _ => PWM_ERROR_SET_PERIOD

/-! ## Test collaborators -/

/-- Every call succeeds; every surface exists; every read returns `content`. -/
def nodeFs (content : List Char) : Collab Unit where
  stat := fun u _ => ⟨u, 0, 0⟩
  open_ := fun u _ _ => ⟨u, 3, 0⟩
  write := fun u _ bytes => ⟨u, (bytes.length : Nat), 0⟩
  read := fun u _ _ => ⟨u, ReadRes.data content, 0⟩
  close := fun u _ => ⟨u, 0, 0⟩
  usleep := fun u _ => u
  strerror := fun _ => "Unknown error"

/-- Exactly the paths accepted by `present` exist (`stat` fails with `ENOENT` on
the others); `open` succeeds when `openable`, else fails with `EACCES`. -/
def statFs (present : String → Bool) (openable : Bool) : Collab Unit where
  stat := fun u p => if present p then ⟨u, 0, 0⟩ else ⟨u, -1, ENOENT⟩
  open_ := fun u _ _ => if openable then ⟨u, 3, 0⟩ else ⟨u, -1, 13⟩
  write := fun u _ bytes => ⟨u, (bytes.length : Nat), 0⟩
  read := fun u _ _ => ⟨u, ReadRes.data [], 0⟩
  close := fun u _ => ⟨u, 0, 0⟩
  usleep := fun u _ => u
  strerror := fun _ => "Unknown error"

/-- The node is opened as descriptor 3, then `write` fails with `ENOSPC` (28) and
`close` fails with `EIO` (5). -/
def writeFailFs : Collab Unit where
  stat := fun u _ => ⟨u, 0, 0⟩
  open_ := fun u _ _ => ⟨u, 3, 0⟩
  write := fun u _ _ => ⟨u, -1, 28⟩
  read := fun u _ _ => ⟨u, ReadRes.data [], 0⟩
  close := fun u _ => ⟨u, -1, 5⟩
  usleep := fun u _ => u
  strerror := fun _ => "Unknown error"

/-- The state counts the reads so far: the first `n` reads are interrupted (`read`
returns -1 with `errno = EINTR`), the later ones return `content`. -/
def interruptedFs (n : Nat) (content : List Char) : Collab Nat where
  stat := fun k _ => ⟨k, 0, 0⟩
  open_ := fun k _ _ => ⟨k, 3, 0⟩
  write := fun k _ bytes => ⟨k, (bytes.length : Nat), 0⟩
  read := fun k _ _ =>
    if k < n then ⟨k + 1, ReadRes.error 0, EINTR⟩ else ⟨k + 1, ReadRes.data content, 0⟩
  close := fun k _ => ⟨k, 0, 0⟩
  usleep := fun k _ => k
  strerror := fun _ => "Interrupted system call"

/-- The state counts the existence checks of the channel surface; the surface is
absent at the first `k` of them (`ENOENT`) and present afterwards.  The root and
chip surfaces exist and the export succeeds. -/
def appearFs (channel : String) (k : Nat) : Collab Nat where
  stat := fun n p =>
    if p = channel then (if n < k then ⟨n + 1, -1, ENOENT⟩ else ⟨n + 1, 0, 0⟩) else ⟨n, 0, 0⟩
  open_ := fun n _ _ => ⟨n, 3, 0⟩
  write := fun n _ bytes => ⟨n, (bytes.length : Nat), 0⟩
  read := fun n _ _ => ⟨n, ReadRes.data [], 0⟩
  close := fun n _ => ⟨n, 0, 0⟩
  usleep := fun n _ => n
  strerror := fun _ => "Unknown error"

/-- Every call fails, `open` and `stat` with `ENOENT`. -/
def deadFs : Collab Unit where
  stat := fun u _ => ⟨u, -1, ENOENT⟩
  open_ := fun u _ _ => ⟨u, -1, ENOENT⟩
  write := fun u _ _ => ⟨u, -1, 9⟩
  read := fun u _ _ => ⟨u, ReadRes.error 0, 9⟩
  close := fun u _ => ⟨u, -1, 9⟩
  usleep := fun u _ => u
  strerror := fun _ => "No such file or directory"

/-- The state is the content of the one node: `write` stores the bytes written,
`read` returns the bytes stored. -/
def echoFs : Collab (List Char) where
  stat := fun s _ => ⟨s, 0, 0⟩
  open_ := fun s _ _ => ⟨s, 3, 0⟩
  write := fun _ _ bytes => ⟨bytes, (bytes.length : Nat), 0⟩
  read := fun s _ _ => ⟨s, ReadRes.data s, 0⟩
  close := fun s _ => ⟨s, 0, 0⟩
  usleep := fun s _ => s
  strerror := fun _ => "Unknown error"

def sys0 : Sys Unit := ⟨(), 0, []⟩

def sysN : Sys Nat := ⟨0, 0, []⟩

/-- A handle as `pwm_open` leaves it for chip 0, channel 0. -/
def pwm0 : pwm_handle := ⟨0, 0, ⟨0, ""⟩⟩

def sysE : Sys (List Char) := ⟨[], 0, []⟩

/-! ## The export sequence of `pwm_open`, call by call -/

/-- State of the collaborator after the check of the root surface. -/
def afterRoot (c : Collab σ) (s : σ) : σ := (c.stat s rootPath).st

/-- State of the collaborator after the check of the chip surface. -/
def afterChip (c : Collab σ) (s : σ) (chip : Nat) : σ :=
  (c.stat (afterRoot c s) (chipPath chip)).st

/-- State of the collaborator after the first check of the channel surface. -/
def afterChannel (c : Collab σ) (s : σ) (chip id : Nat) : σ :=
  (c.stat (afterChip c s chip) (channelPath chip id)).st

/-- The open of the export node. -/
def exportOpen (c : Collab σ) (s : σ) (chip id : Nat) : Ret σ :=
  c.open_ (afterChannel c s chip id) (exportPath chip) OFlag.O_WRONLY

/-- The write of the channel id to the export node. -/
def exportWrite (c : Collab σ) (s : σ) (chip id : Nat) : Ret σ :=
  c.write (exportOpen c s chip id).st (exportOpen c s chip id).ret (exportBytes id)

/-- The close of the export node. -/
def exportClose (c : Collab σ) (s : σ) (chip id : Nat) : Ret σ :=
  c.close (exportWrite c s chip id).st (exportOpen c s chip id).ret

/-- The calls of `pwm_open` up to the close of the export node. -/
def exportCalls (c : Collab σ) (s : σ) (chip id : Nat) : List Call :=
  [Call.stat rootPath, Call.stat (chipPath chip), Call.stat (channelPath chip id),
    Call.open_ (exportPath chip) OFlag.O_WRONLY,
    Call.write (exportOpen c s chip id).ret (exportBytes id),
    Call.close (exportOpen c s chip id).ret]

/-- In state `s` an existence check of `path` reports "not found". -/
def NotFound (c : Collab σ) (path : String) (s : σ) : Prop :=
  (c.stat s path).ret < 0 ∧ (c.stat s path).err = ENOENT

/-- State of the collaborator after an existence check of `path` and the sleep
that follows it. -/
def afterMiss (c : Collab σ) (path : String) (s : σ) : σ :=
  c.usleep (c.stat s path).st PWM_EXPORT_STAT_DELAY

/-- From state `s` on, the existence check of `path`, repeated with a 100 ms sleep
after each attempt, reports "not found" `misses` times and then succeeds. -/
def FoundAfter (c : Collab σ) (path : String) : Nat → σ → Prop
  | 0, s => (c.stat s path).ret = 0
  | misses + 1, s => NotFound c path s ∧ FoundAfter c path misses (afterMiss c path s)

/-- From state `s` on, the existence check of `path`, repeated with a 100 ms sleep
after each attempt, reports "not found" `n` times in a row. -/
def AllMiss (c : Collab σ) (path : String) : Nat → σ → Prop
  | 0, _ => True
  | n + 1, s => NotFound c path s ∧ AllMiss c path n (afterMiss c path s)

/-- The calls of `n` unsuccessful polling attempts: check, sleep, check, sleep ... -/
def missCalls (path : String) : Nat → List Call
  | 0 => []
  | n + 1 => Call.stat path :: Call.usleep PWM_EXPORT_STAT_DELAY :: missCalls path n

/-- Machine state of `pwm_open` when its polling loop starts. -/
def pollStart (c : Collab σ) (sys : Sys σ) (chip id : Nat) : Sys σ :=
  ⟨(exportClose c sys.st chip id).st, (exportClose c sys.st chip id).err,
    sys.trace ++ exportCalls c sys.st chip id⟩

/-! ## Vocabulary of the statements about `pwm_tostring` -/

/-- The reads of the getters are unavailable: every open fails, or every read
fails (returning a negative value other than `-EINTR`; POSIX returns -1). -/
def Unavailable (c : Collab σ) : Prop :=
  (∀ s p f, (c.open_ s p f).ret < 0) ∨
  (∀ s fd n, (c.read s fd n).res.ret n < 0 ∧ (c.read s fd n).res.ret n ≠ -EINTR)

/-- The summary of a channel none of whose fields is available: duty and period
rendered as -1, enable as 0. -/
def sentinelSummary (pwm : pwm_handle) : String :=
  "PWM pwmchip" ++ fmt_u pwm.pwm_chip_id ++ "/pwm" ++ fmt_u pwm.pwm_id
    ++ " (duty_ns=-1, period_ns=-1, enable=0)"

/-! ## Theorems -/

section Basics

@[simp] theorem sys_stat_ret (c : Collab σ) (sys : Sys σ) (p : String) :
    (sys_stat c sys p).2 = (c.stat sys.st p).ret := rfl

@[simp] theorem sys_stat_sys (c : Collab σ) (sys : Sys σ) (p : String) :
    (sys_stat c sys p).1 = ⟨(c.stat sys.st p).st, (c.stat sys.st p).err,
      sys.trace ++ [Call.stat p]⟩ := rfl

@[simp] theorem sys_open_ret (c : Collab σ) (sys : Sys σ) (p : String) (f : OFlag) :
    (sys_open c sys p f).2 = (c.open_ sys.st p f).ret := rfl

@[simp] theorem sys_open_sys (c : Collab σ) (sys : Sys σ) (p : String) (f : OFlag) :
    (sys_open c sys p f).1 = ⟨(c.open_ sys.st p f).st, (c.open_ sys.st p f).err,
      sys.trace ++ [Call.open_ p f]⟩ := rfl

@[simp] theorem sys_write_ret (c : Collab σ) (sys : Sys σ) (fd : Int) (b : List Char) :
    (sys_write c sys fd b).2 = (c.write sys.st fd b).ret := rfl

@[simp] theorem sys_write_sys (c : Collab σ) (sys : Sys σ) (fd : Int) (b : List Char) :
    (sys_write c sys fd b).1 = ⟨(c.write sys.st fd b).st, (c.write sys.st fd b).err,
      sys.trace ++ [Call.write fd b]⟩ := rfl

@[simp] theorem sys_read_res (c : Collab σ) (sys : Sys σ) (fd : Int) (n : Nat) :
    (sys_read c sys fd n).2 = (c.read sys.st fd n).res := rfl

@[simp] theorem sys_read_sys (c : Collab σ) (sys : Sys σ) (fd : Int) (n : Nat) :
    (sys_read c sys fd n).1 = ⟨(c.read sys.st fd n).st, (c.read sys.st fd n).err,
      sys.trace ++ [Call.read fd n]⟩ := rfl

@[simp] theorem sys_close_ret (c : Collab σ) (sys : Sys σ) (fd : Int) :
    (sys_close c sys fd).2 = (c.close sys.st fd).ret := rfl

@[simp] theorem sys_close_sys (c : Collab σ) (sys : Sys σ) (fd : Int) :
    (sys_close c sys fd).1 = ⟨(c.close sys.st fd).st, (c.close sys.st fd).err,
      sys.trace ++ [Call.close fd]⟩ := rfl

@[simp] theorem fail_ret (c : Collab σ) (sys : Sys σ) (pwm : pwm_handle) (code e : Int)
    (msg : String) : (fail c sys pwm code e msg).ret = code := rfl

@[simp] theorem fail_sys (c : Collab σ) (sys : Sys σ) (pwm : pwm_handle) (code e : Int)
    (msg : String) : (fail c sys pwm code e msg).sys = sys := rfl

@[simp] theorem fail_c_errno (c : Collab σ) (sys : Sys σ) (pwm : pwm_handle) (code e : Int)
    (msg : String) : (fail c sys pwm code e msg).pwm.error.c_errno = e := rfl

@[simp] theorem fail_chip_id (c : Collab σ) (sys : Sys σ) (pwm : pwm_handle) (code e : Int)
    (msg : String) : (fail c sys pwm code e msg).pwm.pwm_chip_id = pwm.pwm_chip_id := rfl

@[simp] theorem fail_pwm_id (c : Collab σ) (sys : Sys σ) (pwm : pwm_handle) (code e : Int)
    (msg : String) : (fail c sys pwm code e msg).pwm.pwm_id = pwm.pwm_id := rfl

theorem data_ret_nonneg (bytes : List Char) (count : Nat) :
    ¬ ((ReadRes.data bytes).ret count < 0) := by
  simp [ReadRes.ret]

theorem error_ret_neg (n count : Nat) : (ReadRes.error n).ret count < 0 := by
  simp only [ReadRes.ret, Int.negSucc_eq]
  omega

end Basics

section Open

/-- C7. When the existence checks of the root, chip and channel surfaces
succeed, `pwm_open` returns 0, the handle holds the two ids with error code 0
and an empty message, and the only calls issued are the three existence checks
(no `open`, no `write`, no `usleep`).  A second `pwm_open` on the same ids, the
surfaces still existing, again issues just these three checks. -/
theorem pwm_open_existing_channel (c : Collab σ) (sys : Sys σ) (pwm : pwm_handle)
    (chip id : Nat)
    (hroot : 0 ≤ (c.stat sys.st rootPath).ret)
    (hchip : 0 ≤ (c.stat (afterRoot c sys.st) (chipPath chip)).ret)
    (hchan : 0 ≤ (c.stat (afterChip c sys.st chip) (channelPath chip id)).ret) :
    (pwm_open c sys pwm chip id).ret = 0 ∧
    (pwm_open c sys pwm chip id).pwm = ⟨chip, id, ⟨0, ""⟩⟩ ∧
    (pwm_open c sys pwm chip id).sys.trace =
      sys.trace ++ [Call.stat rootPath, Call.stat (chipPath chip),
        Call.stat (channelPath chip id)] ∧
    (pwm_open c sys pwm chip id).sys.st = afterChannel c sys.st chip id ∧
    (0 ≤ (c.stat (afterChannel c sys.st chip id) rootPath).ret →
      0 ≤ (c.stat (afterRoot c (afterChannel c sys.st chip id)) (chipPath chip)).ret →
      0 ≤ (c.stat (afterChip c (afterChannel c sys.st chip id) chip)
        (channelPath chip id)).ret →
      (pwm_open c (pwm_open c sys pwm chip id).sys (pwm_open c sys pwm chip id).pwm
        chip id).ret = 0 ∧
      (pwm_open c (pwm_open c sys pwm chip id).sys (pwm_open c sys pwm chip id).pwm
          chip id).sys.trace =
        (pwm_open c sys pwm chip id).sys.trace ++ [Call.stat rootPath,
          Call.stat (chipPath chip), Call.stat (channelPath chip id)]) := by
  have key : ∀ (sys : Sys σ) (pwm : pwm_handle),
      0 ≤ (c.stat sys.st rootPath).ret →
      0 ≤ (c.stat (afterRoot c sys.st) (chipPath chip)).ret →
      0 ≤ (c.stat (afterChip c sys.st chip) (channelPath chip id)).ret →
      pwm_open c sys pwm chip id =
        ⟨⟨afterChannel c sys.st chip id,
            (c.stat (afterChip c sys.st chip) (channelPath chip id)).err,
            sys.trace ++ [Call.stat rootPath, Call.stat (chipPath chip),
              Call.stat (channelPath chip id)]⟩, ⟨chip, id, ⟨0, ""⟩⟩, 0⟩ := by
    intro sys pwm h1 h2 h3
    simp only [afterRoot, afterChip, rootPath, chipPath, channelPath] at h1 h2 h3
    simp [pwm_open, afterChannel, afterChip, afterRoot, rootPath, chipPath, channelPath,
      not_lt.mpr h1, not_lt.mpr h2, not_lt.mpr h3]
  have h := key sys pwm hroot hchip hchan
  refine ⟨by rw [h], by rw [h], by rw [h], by rw [h], ?_⟩
  intro g1 g2 g3
  rw [h]
  have h2 := key ⟨afterChannel c sys.st chip id,
    (c.stat (afterChip c sys.st chip) (channelPath chip id)).err,
    sys.trace ++ [Call.stat rootPath, Call.stat (chipPath chip),
      Call.stat (channelPath chip id)]⟩ ⟨chip, id, ⟨0, ""⟩⟩ g1 g2 g3
  rw [h2]
  exact ⟨rfl, rfl⟩

/-- Chip 2, channel 5 on a collaborator where every surface exists: two calls of
`pwm_open`, three existence checks each. -/
theorem pwm_open_existing_channel_witness :
    (pwm_open (nodeFs []) sys0 pwm0 2 5).ret = 0 ∧
    (pwm_open (nodeFs []) sys0 pwm0 2 5).pwm = ⟨2, 5, ⟨0, ""⟩⟩ ∧
    (pwm_open (nodeFs []) sys0 pwm0 2 5).sys.trace =
      [Call.stat "/sys/class/pwm", Call.stat "/sys/class/pwm/pwmchip2",
        Call.stat "/sys/class/pwm/pwmchip2/pwm5"] ∧
    (pwm_open (nodeFs []) (pwm_open (nodeFs []) sys0 pwm0 2 5).sys
      (pwm_open (nodeFs []) sys0 pwm0 2 5).pwm 2 5).ret = 0 ∧
    (pwm_open (nodeFs []) (pwm_open (nodeFs []) sys0 pwm0 2 5).sys
      (pwm_open (nodeFs []) sys0 pwm0 2 5).pwm 2 5).sys.trace =
      [Call.stat "/sys/class/pwm", Call.stat "/sys/class/pwm/pwmchip2",
        Call.stat "/sys/class/pwm/pwmchip2/pwm5",
        Call.stat "/sys/class/pwm", Call.stat "/sys/class/pwm/pwmchip2",
        Call.stat "/sys/class/pwm/pwmchip2/pwm5"] :=
  have h := pwm_open_existing_channel (nodeFs []) sys0 pwm0 2 5 (by decide) (by decide)
    (by decide)
  have h2 := h.2.2.2.2 (by decide) (by decide) (by decide)
  ⟨h.1, h.2.1, h.2.2.1.trans (by decide), h2.1, h2.2.trans (by decide)⟩

/-- Every path of `pwm_open` returns 0 or `PWM_ERROR_EXPORT`: the missing root
surface, the missing chip surface, the failures of the open, write and close of
the export node, the failed polling check and the timeout all return the same
code. -/
theorem pwm_open_ret_zero_or_export (c : Collab σ) (sys : Sys σ) (pwm : pwm_handle)
    (chip id : Nat) :
    (pwm_open c sys pwm chip id).ret = 0 ∨ (pwm_open c sys pwm chip id).ret = PWM_ERROR_EXPORT := by
  simp only [pwm_open]
  split_ifs
  · exact Or.inr (fail_ret _ _ _ _ _ _)
  · exact Or.inr (fail_ret _ _ _ _ _ _)
  · exact Or.inr (fail_ret _ _ _ _ _ _)
  · exact Or.inr (fail_ret _ _ _ _ _ _)
  · exact Or.inr (fail_ret _ _ _ _ _ _)
  · split
    · exact Or.inr (fail_ret _ _ _ _ _ _)
    · split_ifs
      · exact Or.inr (fail_ret _ _ _ _ _ _)
      · exact Or.inl rfl
  · exact Or.inl rfl

/-- C6, as amended. When the root surface exists and the chip surface does not,
`pwm_open` returns `PWM_ERROR_EXPORT`, records the `errno` of the failed check
with the message "PWM chip id is invalid", leaves the ids of the handle alone,
and issues exactly two calls, both existence checks: the export node is neither
opened nor written.  `PWM_ERROR_EXPORT` is the one code of `pwm_open`: for every
collaborator, state, handle and ids, whatever fails, `pwm_open` returns 0 or
`PWM_ERROR_EXPORT`. -/
theorem pwm_open_invalid_chip (c : Collab σ) (sys : Sys σ) (pwm : pwm_handle) (chip id : Nat)
    (hroot : 0 ≤ (c.stat sys.st rootPath).ret)
    (hchip : (c.stat (c.stat sys.st rootPath).st (chipPath chip)).ret < 0) :
    (pwm_open c sys pwm chip id).ret = PWM_ERROR_EXPORT ∧
    (pwm_open c sys pwm chip id).pwm =
      (_pwm_error c pwm PWM_ERROR_EXPORT
        (c.stat (c.stat sys.st rootPath).st (chipPath chip)).err "PWM chip id is invalid").1 ∧
    (pwm_open c sys pwm chip id).pwm.error.c_errno =
      (c.stat (c.stat sys.st rootPath).st (chipPath chip)).err ∧
    (pwm_open c sys pwm chip id).pwm.pwm_chip_id = pwm.pwm_chip_id ∧
    (pwm_open c sys pwm chip id).pwm.pwm_id = pwm.pwm_id ∧
    (pwm_open c sys pwm chip id).sys.trace =
      sys.trace ++ [Call.stat rootPath, Call.stat (chipPath chip)] ∧
    (∀ (c2 : Collab σ) (sys2 : Sys σ) (pwm2 : pwm_handle) (chip2 id2 : Nat),
      (pwm_open c2 sys2 pwm2 chip2 id2).ret = 0 ∨
      (pwm_open c2 sys2 pwm2 chip2 id2).ret = PWM_ERROR_EXPORT) := by
  simp only [rootPath, chipPath] at hroot hchip
  refine ⟨?_, ?_, ?_, ?_, ?_, ?_, fun c2 sys2 pwm2 chip2 id2 =>
    pwm_open_ret_zero_or_export c2 sys2 pwm2 chip2 id2⟩ <;>
  simp [pwm_open, sys_stat, fail, _pwm_error, rootPath, chipPath, not_lt.mpr hroot, hchip]

/-- Chip 7 on a collaborator where only the root surface exists; on the same
collaborator chip 7 with the chip surface present times out with the same code. -/
theorem pwm_open_invalid_chip_witness :
    (pwm_open (statFs (fun p => p = rootPath) true) sys0 pwm0 7 0).ret = PWM_ERROR_EXPORT ∧
    (pwm_open (statFs (fun p => p = rootPath) true) sys0 pwm0 7 0).pwm.error =
      ⟨ENOENT, "PWM chip id is invalid: Unknown error [errno 2]"⟩ ∧
    (pwm_open (statFs (fun p => p = rootPath) true) sys0 pwm0 7 0).sys.trace =
      [Call.stat "/sys/class/pwm", Call.stat "/sys/class/pwm/pwmchip7"] ∧
    ((pwm_open writeFailFs sys0 pwm0 7 0).ret = 0 ∨
      (pwm_open writeFailFs sys0 pwm0 7 0).ret = PWM_ERROR_EXPORT) :=
  have h := pwm_open_invalid_chip (statFs (fun p => p = rootPath) true) sys0 pwm0 7 0
    (by decide) (by decide)
  ⟨h.1, by decide, by decide, h.2.2.2.2.2.2 writeFailFs sys0 pwm0 7 0⟩

/-- C6, counterexample. The value `pwm_open` returns for a missing chip surface is
the value it returns for a missing root surface, for an export node that cannot
be opened, and for an export that times out: the four outcomes differ in the
recorded message and `errno` only, their kind is the same. -/
theorem pwm_open_invalid_chip_kind_shared :
    (pwm_open (statFs (fun p => p = rootPath) true) sys0 pwm0 7 0).pwm.error.errmsg =
        "PWM chip id is invalid: Unknown error [errno 2]" ∧
    (pwm_open (statFs (fun _ => false) true) sys0 pwm0 7 0).pwm.error.errmsg =
        "PWM sysfs not enabled in kernel: Unknown error [errno 2]" ∧
    (pwm_open (statFs (fun p => p = rootPath || p = chipPath 7) false) sys0 pwm0 7 0).pwm.error.errmsg
        = "Exporting PWM: opening 'export': Unknown error [errno 13]" ∧
    (pwm_open (statFs (fun p => p = rootPath || p = chipPath 7) true) sys0 pwm0 7 0).pwm.error.errmsg
        = "Exporting PWM: waiting for 'pwmchi7/pwm0' timed out" ∧
    (pwm_open (statFs (fun p => p = rootPath) true) sys0 pwm0 7 0).ret =
        (pwm_open (statFs (fun _ => false) true) sys0 pwm0 7 0).ret ∧
    (pwm_open (statFs (fun p => p = rootPath) true) sys0 pwm0 7 0).ret =
        (pwm_open (statFs (fun p => p = rootPath || p = chipPath 7) false) sys0 pwm0 7 0).ret ∧
    (pwm_open (statFs (fun p => p = rootPath) true) sys0 pwm0 7 0).ret =
        (pwm_open (statFs (fun p => p = rootPath || p = chipPath 7) true) sys0 pwm0 7 0).ret := by
  decide

end Open

section Setters

/-- C9. For each setter and every value: when the open of its node succeeds and
the write then fails leaving `errno = e`, the setter issues exactly the calls
open, write, close, the close being on the descriptor the open returned; it
returns its own error code and records `e`, whatever the close returns. -/
theorem setter_closes_after_failed_write (c : Collab σ) (sys : Sys σ) (pwm : pwm_handle)
    (x : Setter) (e : Int)
    (hopen : 0 ≤ (c.open_ sys.st (x.node pwm) OFlag.O_WRONLY).ret)
    (hwrite : (c.write (c.open_ sys.st (x.node pwm) OFlag.O_WRONLY).st
      (c.open_ sys.st (x.node pwm) OFlag.O_WRONLY).ret x.bytes).ret < 0)
    (herr : (c.write (c.open_ sys.st (x.node pwm) OFlag.O_WRONLY).st
      (c.open_ sys.st (x.node pwm) OFlag.O_WRONLY).ret x.bytes).err = e) :
    (x.run c sys pwm).sys.trace =
      sys.trace ++ [Call.open_ (x.node pwm) OFlag.O_WRONLY,
        Call.write (c.open_ sys.st (x.node pwm) OFlag.O_WRONLY).ret x.bytes,
        Call.close (c.open_ sys.st (x.node pwm) OFlag.O_WRONLY).ret] ∧
    (x.run c sys pwm).ret = x.kind ∧
    (x.run c sys pwm).pwm.error.c_errno = e := by
  cases x with
  | enable b =>
    simp only [Setter.node, Setter.bytes, enableNode, enableBytes] at hopen hwrite herr
    simp [Setter.run, Setter.node, Setter.bytes, Setter.kind, pwm_set_enable, sys_open,
      sys_write, sys_close, fail, _pwm_error, enableNode, enableBytes, not_lt.mpr hopen,
      hwrite, herr]
  | duty v =>
    simp only [Setter.node, Setter.bytes, dutyNode, valueBytes] at hopen hwrite herr
    simp [Setter.run, Setter.node, Setter.bytes, Setter.kind, pwm_set_duty, sys_open,
      sys_write, sys_close, fail, _pwm_error, dutyNode, valueBytes, not_lt.mpr hopen,
      hwrite, herr]
  | period v =>
    simp only [Setter.node, Setter.bytes, periodNode, valueBytes] at hopen hwrite herr
    simp [Setter.run, Setter.node, Setter.bytes, Setter.kind, pwm_set_period, sys_open,
      sys_write, sys_close, fail, _pwm_error, periodNode, valueBytes, not_lt.mpr hopen,
      hwrite, herr]

/-- The three setters on a collaborator whose write fails with `ENOSPC` and whose
close fails with `EIO`: the close is issued on descriptor 3 and the code
recorded is that of the write. -/
theorem setter_closes_after_failed_write_witness :
    ((pwm_set_duty writeFailFs sys0 pwm0 1500).sys.trace =
        [Call.open_ "/sys/class/pwm/pwmchip0/pwm0/duty_cycle" OFlag.O_WRONLY,
          Call.write 3 ['1', '5', '0', '0', NUL], Call.close 3] ∧
      (pwm_set_duty writeFailFs sys0 pwm0 1500).ret = PWM_ERROR_SET_DUTY ∧
      (pwm_set_duty writeFailFs sys0 pwm0 1500).pwm.error.c_errno = 28) ∧
    ((pwm_set_period writeFailFs sys0 pwm0 20000).sys.trace =
        [Call.open_ "/sys/class/pwm/pwmchip0/pwm0/period" OFlag.O_WRONLY,
          Call.write 3 ['2', '0', '0', '0', '0', NUL], Call.close 3] ∧
      (pwm_set_period writeFailFs sys0 pwm0 20000).ret = PWM_ERROR_SET_PERIOD ∧
      (pwm_set_period writeFailFs sys0 pwm0 20000).pwm.error.c_errno = 28) ∧
    ((pwm_set_enable writeFailFs sys0 pwm0 true).sys.trace =
        [Call.open_ "/sys/class/pwm/pwmchip0/pwm0/enable" OFlag.O_WRONLY,
          Call.write 3 ['1', NUL], Call.close 3] ∧
      (pwm_set_enable writeFailFs sys0 pwm0 true).ret = PWM_ERROR_SET_ENABLE ∧
      (pwm_set_enable writeFailFs sys0 pwm0 true).pwm.error.c_errno = 28) :=
  have hd := setter_closes_after_failed_write writeFailFs sys0 pwm0 (Setter.duty 1500) 28
    (by decide) (by decide) (by decide)
  have hp := setter_closes_after_failed_write writeFailFs sys0 pwm0 (Setter.period 20000) 28
    (by decide) (by decide) (by decide)
  have he := setter_closes_after_failed_write writeFailFs sys0 pwm0 (Setter.enable true) 28
    (by decide) (by decide) (by decide)
  ⟨⟨by decide, hd.2.1, hd.2.2⟩, ⟨by decide, hp.2.1, hp.2.2⟩, ⟨by decide, he.2.1, he.2.2⟩⟩

end Setters

section Getters

/-- C10, the failing input. `pwm_get_enable` called without an output location
returns `PWM_ERROR_GET_DUTY`, the code of another getter, not
`PWM_ERROR_GET_ENABLE`; it records error code 0 and issues no call. -/
theorem pwm_get_enable_null_returns_duty_code (c : Collab σ) (junk : Char × Char) (sys : Sys σ)
    (pwm : pwm_handle) :
    (pwm_get_enable c junk sys pwm none).1.ret = PWM_ERROR_GET_DUTY ∧
    (pwm_get_enable c junk sys pwm none).1.ret ≠ PWM_ERROR_GET_ENABLE ∧
    (pwm_get_enable c junk sys pwm none).1.pwm.error.c_errno = 0 ∧
    (pwm_get_enable c junk sys pwm none).1.sys.trace = sys.trace := by
  simp [pwm_get_enable, fail, _pwm_error, PWM_ERROR_GET_DUTY, PWM_ERROR_GET_ENABLE]

/-- With an output location, every failure of `pwm_get_enable` returns
`PWM_ERROR_GET_ENABLE`. -/
theorem pwm_get_enable_fail_code (c : Collab σ) (junk : Char × Char) (sys : Sys σ)
    (pwm : pwm_handle) (b : Bool) (h : (pwm_get_enable c junk sys pwm (some b)).1.ret < 0) :
    (pwm_get_enable c junk sys pwm (some b)).1.ret = PWM_ERROR_GET_ENABLE := by
  revert h
  simp only [pwm_get_enable]
  split_ifs <;> intro h <;> first | rfl | (simp at h)

/-- Every failure of `pwm_get_duty` returns `PWM_ERROR_GET_DUTY`, with or without
an output location. -/
theorem pwm_get_duty_fail_code (fuel : Nat) (c : Collab σ) (sys : Sys σ) (pwm : pwm_handle)
    (o : Option Int) (r : Out σ × Option Int) (hr : pwm_get_duty fuel c sys pwm o = some r)
    (h : r.1.ret < 0) : r.1.ret = PWM_ERROR_GET_DUTY := by
  cases o with
  | none =>
    simp only [pwm_get_duty] at hr
    cases hr
    rfl
  | some v =>
    simp only [pwm_get_duty] at hr
    split_ifs at hr
    · cases hr; rfl
    · split at hr
      · cases hr
      · split_ifs at hr
        · cases hr; rfl
        · cases hr; rfl
        · split at hr <;> cases hr
          · simp at h
          · rfl

/-- Every failure of `pwm_get_period` returns `PWM_ERROR_GET_PERIOD`, with or
without an output location. -/
theorem pwm_get_period_fail_code (fuel : Nat) (c : Collab σ) (sys : Sys σ) (pwm : pwm_handle)
    (o : Option Int) (r : Out σ × Option Int) (hr : pwm_get_period fuel c sys pwm o = some r)
    (h : r.1.ret < 0) : r.1.ret = PWM_ERROR_GET_PERIOD := by
  cases o with
  | none =>
    simp only [pwm_get_period] at hr
    cases hr
    rfl
  | some v =>
    simp only [pwm_get_period] at hr
    split_ifs at hr
    · cases hr; rfl
    · split at hr
      · cases hr
      · split_ifs at hr
        · cases hr; rfl
        · cases hr; rfl
        · split at hr <;> cases hr
          · simp at h
          · rfl

end Getters

section EnableParsing

/-- What `pwm_get_enable` does once open, read and close have succeeded: with
`buf` the two bytes of its buffer after the read, it yields false when
`buf[0]` is '0', true when `buf[0]` is not '0' and `buf[1]` is '1', and fails
with `PWM_ERROR_GET_ENABLE` and error code 0 otherwise, leaving the output
location alone. -/
theorem pwm_get_enable_decision (c : Collab σ) (junk : Char × Char) (sys : Sys σ)
    (pwm : pwm_handle) (b : Bool) (bytes : List Char)
    (hopen : 0 ≤ (c.open_ sys.st (enableNode pwm) OFlag.O_RDONLY).ret)
    (hread : (c.read (c.open_ sys.st (enableNode pwm) OFlag.O_RDONLY).st
      (c.open_ sys.st (enableNode pwm) OFlag.O_RDONLY).ret 2).res = ReadRes.data bytes)
    (hclose : 0 ≤ (c.close (c.read (c.open_ sys.st (enableNode pwm) OFlag.O_RDONLY).st
      (c.open_ sys.st (enableNode pwm) OFlag.O_RDONLY).ret 2).st
      (c.open_ sys.st (enableNode pwm) OFlag.O_RDONLY).ret).ret) :
    ((fill2 junk (bytes.take 2)).1 = '0' →
      (pwm_get_enable c junk sys pwm (some b)).1.ret = 0 ∧
      (pwm_get_enable c junk sys pwm (some b)).2 = some false) ∧
    ((fill2 junk (bytes.take 2)).1 ≠ '0' → (fill2 junk (bytes.take 2)).2 = '1' →
      (pwm_get_enable c junk sys pwm (some b)).1.ret = 0 ∧
      (pwm_get_enable c junk sys pwm (some b)).2 = some true) ∧
    ((fill2 junk (bytes.take 2)).1 ≠ '0' → (fill2 junk (bytes.take 2)).2 ≠ '1' →
      (pwm_get_enable c junk sys pwm (some b)).1.ret = PWM_ERROR_GET_ENABLE ∧
      (pwm_get_enable c junk sys pwm (some b)).1.pwm.error.c_errno = 0 ∧
      (pwm_get_enable c junk sys pwm (some b)).2 = some b) := by
  simp only [enableNode] at hopen hread hclose
  have hret : ¬ ((ReadRes.data bytes).ret 2 < 0) := by
    simp [ReadRes.ret]
  refine ⟨fun h0 => ?_, fun h0 h1 => ?_, fun h0 h1 => ?_⟩
  · simp [pwm_get_enable, sys_open, sys_read, sys_close, not_lt.mpr hopen, hread, hret,
      not_lt.mpr hclose, ReadRes.stored, h0]
  · simp [pwm_get_enable, sys_open, sys_read, sys_close, not_lt.mpr hopen, hread, hret,
      not_lt.mpr hclose, ReadRes.stored, h0, h1]
  · simp [pwm_get_enable, sys_open, sys_read, sys_close, not_lt.mpr hopen, hread, hret,
      not_lt.mpr hclose, ReadRes.stored, h0, h1, fail, _pwm_error]

/-- C1, the failing input. The `enable` node of an enabled channel reads "1\n":
byte 0 is '1', yet `pwm_get_enable` fails with `PWM_ERROR_GET_ENABLE` and error
code 0, because it tests `buf[1]` against '1'. When the node reads "x1" it
succeeds and yields true although byte 0 is neither '0' nor '1'; when only the
byte '1' is read the outcome depends on what `buf[1]` held before the read. -/
theorem pwm_get_enable_one_newline_fails (junk : Char × Char) (sys : Sys Unit)
    (pwm : pwm_handle) (b : Bool) :
    (pwm_get_enable (nodeFs ['1', Char.ofNat 10]) junk sys pwm (some b)).1.ret
      = PWM_ERROR_GET_ENABLE ∧
    (pwm_get_enable (nodeFs ['1', Char.ofNat 10]) junk sys pwm (some b)).1.pwm.error.c_errno
      = 0 ∧
    (pwm_get_enable (nodeFs ['1', Char.ofNat 10]) junk sys pwm (some b)).2 = some b ∧
    (pwm_get_enable (nodeFs ['x', '1']) junk sys pwm (some b)).1.ret = 0 ∧
    (pwm_get_enable (nodeFs ['x', '1']) junk sys pwm (some b)).2 = some true ∧
    ((pwm_get_enable (nodeFs ['1']) junk sys pwm (some b)).1.ret = 0 ↔ junk.2 = '1') := by
  refine ⟨?_, ?_, ?_, ?_, ?_, ?_⟩
  · simp [pwm_get_enable, nodeFs, sys_open, sys_read, sys_close, ReadRes.ret, ReadRes.stored,
      fill2, fail, _pwm_error]
  · simp [pwm_get_enable, nodeFs, sys_open, sys_read, sys_close, ReadRes.ret, ReadRes.stored,
      fill2, fail, _pwm_error]
  · simp [pwm_get_enable, nodeFs, sys_open, sys_read, sys_close, ReadRes.ret, ReadRes.stored,
      fill2, fail, _pwm_error]
  · simp [pwm_get_enable, nodeFs, sys_open, sys_read, sys_close, ReadRes.ret, ReadRes.stored,
      fill2, fail, _pwm_error]
  · simp [pwm_get_enable, nodeFs, sys_open, sys_read, sys_close, ReadRes.ret, ReadRes.stored,
      fill2, fail, _pwm_error]
  · by_cases hj : junk.2 = '1'
    · simp [pwm_get_enable, nodeFs, sys_open, sys_read, sys_close, ReadRes.ret, ReadRes.stored,
        fill2, fail, _pwm_error, hj]
    · simp [pwm_get_enable, nodeFs, sys_open, sys_read, sys_close, ReadRes.ret, ReadRes.stored,
        fill2, fail, _pwm_error, hj, PWM_ERROR_GET_ENABLE]

end EnableParsing

section Interrupted

/-- The read loop of `pwm_get_duty` and `pwm_get_period` ends after one read
unless that read returned exactly `-EINTR`; in particular a read that returns -1
is not issued again, whatever `errno` says. -/
theorem read_retry_once (c : Collab σ) (fd : Int) (count fuel : Nat) (sys : Sys σ)
    (h : (c.read sys.st fd count).res.ret count ≠ -EINTR) :
    read_retry c fd count (fuel + 1) sys = some (sys_read c sys fd count) := by
  simp only [read_retry, sys_read_res, h, and_false, if_false]

/-- A read of the `period` node that returns -1 ends `pwm_get_period`: one read,
one close, `PWM_ERROR_GET_PERIOD` with the `errno` of the read. -/
theorem pwm_get_period_no_retry (c : Collab σ) (sys : Sys σ) (pwm : pwm_handle) (v : Int)
    (fuel : Nat)
    (hopen : 0 ≤ (c.open_ sys.st (periodNodeU pwm) OFlag.O_RDONLY).ret)
    (hread : (c.read (c.open_ sys.st (periodNodeU pwm) OFlag.O_RDONLY).st
      (c.open_ sys.st (periodNodeU pwm) OFlag.O_RDONLY).ret 31).res.ret 31 = -1) :
    ∃ r, pwm_get_period (fuel + 1) c sys pwm (some v) = some r ∧
      r.1.ret = PWM_ERROR_GET_PERIOD ∧
      r.1.pwm.error.c_errno = (c.read (c.open_ sys.st (periodNodeU pwm) OFlag.O_RDONLY).st
        (c.open_ sys.st (periodNodeU pwm) OFlag.O_RDONLY).ret 31).err ∧
      r.2 = some v ∧
      r.1.sys.trace = sys.trace ++ [Call.open_ (periodNodeU pwm) OFlag.O_RDONLY,
        Call.read (c.open_ sys.st (periodNodeU pwm) OFlag.O_RDONLY).ret 31,
        Call.close (c.open_ sys.st (periodNodeU pwm) OFlag.O_RDONLY).ret] := by
  have hr := read_retry_once c (c.open_ sys.st (periodNodeU pwm) OFlag.O_RDONLY).ret 31 fuel
    (sys_open c sys (periodNodeU pwm) OFlag.O_RDONLY).1 (by
      simp only [sys_open_sys, hread]
      decide)
  simp only [periodNodeU] at hr hopen hread
  simp only [pwm_get_period, sys_open_ret, not_lt.mpr hopen, if_false, hr]
  simp [hread, periodNodeU]

/-- Without an interruption the node used in the failing input of C3 reads as
1000. -/
theorem pwm_get_period_uninterrupted (fuel : Nat) (pwm : pwm_handle) (v : Int) :
    ∃ r, pwm_get_period (fuel + 1) (interruptedFs 0 ['1', '0', '0', '0', Char.ofNat 10]) sysN pwm
        (some v) = some r ∧ r.1.ret = 0 ∧ r.2 = some 1000 := by
  have hr := read_retry_once (interruptedFs 0 ['1', '0', '0', '0', Char.ofNat 10]) 3 31 fuel
    (sys_open (interruptedFs 0 ['1', '0', '0', '0', Char.ofNat 10]) sysN (periodNodeU pwm)
      OFlag.O_RDONLY).1 (by simp [interruptedFs, sysN, ReadRes.ret, EINTR])
  have hs : sscanf_d ['1', '0', '0', '0', Char.ofNat 10, NUL] = some 1000 := by decide
  have ho : ((interruptedFs 0 ['1', '0', '0', '0', Char.ofNat 10]).open_ sysN.st
    (periodNodeU pwm) OFlag.O_RDONLY).ret = 3 := rfl
  simp only [periodNodeU] at hr ho
  simp only [pwm_get_period, sys_open_ret, ho, hr]
  simp [interruptedFs, sysN, ReadRes.ret, ReadRes.stored, hs]

/-- C3, the failing input. The first read of the `period` node is interrupted
(`read` returns -1 with `errno = EINTR`) and the next one would return
"1000\n".  `pwm_get_period` does not read again: it issues one read, closes the
node and returns `PWM_ERROR_GET_PERIOD` with error code `EINTR`, the output
location untouched.  The same node, read without interruption, yields 1000. -/
theorem pwm_get_period_interrupted_fails (fuel : Nat) (pwm : pwm_handle) (v : Int) :
    (∃ r, pwm_get_period (fuel + 1) (interruptedFs 1 ['1', '0', '0', '0', Char.ofNat 10]) sysN pwm
        (some v) = some r ∧
      r.1.ret = PWM_ERROR_GET_PERIOD ∧ r.1.pwm.error.c_errno = EINTR ∧ r.2 = some v ∧
      r.1.sys.trace = [Call.open_ (periodNodeU pwm) OFlag.O_RDONLY, Call.read 3 31,
        Call.close 3]) ∧
    (∃ r, pwm_get_period (fuel + 1) (interruptedFs 0 ['1', '0', '0', '0', Char.ofNat 10]) sysN pwm
        (some v) = some r ∧ r.1.ret = 0 ∧ r.2 = some 1000) := by
  refine ⟨?_, pwm_get_period_uninterrupted fuel pwm v⟩
  obtain ⟨r, h1, h2, h3, h4, h5⟩ :=
    pwm_get_period_no_retry (interruptedFs 1 ['1', '0', '0', '0', Char.ofNat 10]) sysN pwm v fuel
      (by simp [interruptedFs]) (by simp [interruptedFs, sysN, ReadRes.ret])
  refine ⟨r, h1, h2, ?_, h4, ?_⟩
  · rw [h3]
    simp [interruptedFs, sysN]
  · rw [h5]
    simp [interruptedFs, sysN]

end Interrupted

section Config

/-- C4, the failing input. On an enabled channel (the `enable` node reads "1\n",
every call succeeds) `pwm_config` with `enable = true` stops right after reading
the enable state: it returns `PWM_ERROR_GET_ENABLE` and has issued the open, the
read and the close of that read only, no write at all. -/
theorem pwm_config_enabled_channel_fails (junk : Char × Char) (old : Bool) (sys : Sys Unit)
    (pwm : pwm_handle) (period_ns duty_ns : Int) :
    (pwm_config (nodeFs ['1', Char.ofNat 10]) junk old sys pwm period_ns duty_ns true).ret
      = PWM_ERROR_GET_ENABLE ∧
    (pwm_config (nodeFs ['1', Char.ofNat 10]) junk old sys pwm period_ns duty_ns true).sys.trace
      = sys.trace ++ [Call.open_ (enableNode pwm) OFlag.O_RDONLY, Call.read 3 2, Call.close 3] ∧
    (pwm_config (nodeFs ['1', Char.ofNat 10]) junk old sys0 pwm0 period_ns duty_ns true).sys.trace
      = [Call.open_ "/sys/class/pwm/pwmchip0/pwm0/enable" OFlag.O_RDONLY, Call.read 3 2,
          Call.close 3] := by
  have hg : ∀ (sys : Sys Unit) (pwm : pwm_handle),
      pwm_get_enable (nodeFs ['1', Char.ofNat 10]) junk sys pwm (some old) =
        (fail (nodeFs ['1', Char.ofNat 10])
          ⟨(), 0, sys.trace ++ [Call.open_ (enableNode pwm) OFlag.O_RDONLY, Call.read 3 2,
            Call.close 3]⟩ pwm PWM_ERROR_GET_ENABLE 0 "Unkown PWM enable", some old) := by
    intro sys pwm
    simp [pwm_get_enable, enableNode, nodeFs, ReadRes.ret, ReadRes.stored, fill2]
  have hp : enableNode pwm0 = "/sys/class/pwm/pwmchip0/pwm0/enable" := by decide
  refine ⟨?_, ?_, ?_⟩
  · simp [pwm_config, hg, PWM_ERROR_GET_ENABLE]
  · simp [pwm_config, hg, PWM_ERROR_GET_ENABLE]
  · simp [pwm_config, hg, PWM_ERROR_GET_ENABLE, hp, sys0]

/-- The order of the writes of `pwm_config`. When `pwm_get_enable` succeeds and
yields true, and every open, write and close succeeds, `pwm_config` with
`enable = true` returns 0 and, after the calls of `pwm_get_enable`, issues
exactly: open/write "0"/close on `enable`, open/write/close on `period`,
open/write/close on `duty_cycle`, open/write "1"/close on `enable`. -/
theorem pwm_config_write_order (c : Collab σ) (junk : Char × Char) (old : Bool) (sys : Sys σ)
    (pwm : pwm_handle) (period_ns duty_ns : Int)
    (hget : (pwm_get_enable c junk sys pwm (some old)).1.ret = 0)
    (hold : (pwm_get_enable c junk sys pwm (some old)).2 = some true)
    (hopen : ∀ s p f, 0 ≤ (c.open_ s p f).ret)
    (hwrite : ∀ s fd b, 0 ≤ (c.write s fd b).ret)
    (hclose : ∀ s fd, 0 ≤ (c.close s fd).ret) :
    (pwm_config c junk old sys pwm period_ns duty_ns true).ret = 0 ∧
    ∃ fd1 fd2 fd3 fd4 : Int,
      (pwm_config c junk old sys pwm period_ns duty_ns true).sys.trace =
        (pwm_get_enable c junk sys pwm (some old)).1.sys.trace ++
          [Call.open_ (enableNode pwm) OFlag.O_WRONLY, Call.write fd1 (enableBytes false),
            Call.close fd1,
           Call.open_ (periodNode pwm) OFlag.O_WRONLY, Call.write fd2 (valueBytes period_ns),
            Call.close fd2,
           Call.open_ (dutyNode pwm) OFlag.O_WRONLY, Call.write fd3 (valueBytes duty_ns),
            Call.close fd3,
           Call.open_ (enableNode pwm) OFlag.O_WRONLY, Call.write fd4 (enableBytes true),
            Call.close fd4] := by
  have hpwm : (pwm_get_enable c junk sys pwm (some old)).1.pwm = pwm := by
    revert hget
    simp only [pwm_get_enable]
    split_ifs <;> simp [PWM_ERROR_GET_ENABLE]
  have setE : ∀ (s : Sys σ) (b : Bool), pwm_set_enable c s pwm b =
      ⟨⟨(c.close (c.write (c.open_ s.st (enableNode pwm) OFlag.O_WRONLY).st
            (c.open_ s.st (enableNode pwm) OFlag.O_WRONLY).ret (enableBytes b)).st
            (c.open_ s.st (enableNode pwm) OFlag.O_WRONLY).ret).st,
          (c.close (c.write (c.open_ s.st (enableNode pwm) OFlag.O_WRONLY).st
            (c.open_ s.st (enableNode pwm) OFlag.O_WRONLY).ret (enableBytes b)).st
            (c.open_ s.st (enableNode pwm) OFlag.O_WRONLY).ret).err,
          s.trace ++ [Call.open_ (enableNode pwm) OFlag.O_WRONLY,
            Call.write (c.open_ s.st (enableNode pwm) OFlag.O_WRONLY).ret (enableBytes b),
            Call.close (c.open_ s.st (enableNode pwm) OFlag.O_WRONLY).ret]⟩, pwm, 0⟩ := by
    intro s b
    simp [pwm_set_enable, enableNode, enableBytes, not_lt.mpr (hopen _ _ _),
      not_lt.mpr (hwrite _ _ _), not_lt.mpr (hclose _ _)]
  have setP : ∀ (s : Sys σ) (v : Int), pwm_set_period c s pwm v =
      ⟨⟨(c.close (c.write (c.open_ s.st (periodNode pwm) OFlag.O_WRONLY).st
            (c.open_ s.st (periodNode pwm) OFlag.O_WRONLY).ret (valueBytes v)).st
            (c.open_ s.st (periodNode pwm) OFlag.O_WRONLY).ret).st,
          (c.close (c.write (c.open_ s.st (periodNode pwm) OFlag.O_WRONLY).st
            (c.open_ s.st (periodNode pwm) OFlag.O_WRONLY).ret (valueBytes v)).st
            (c.open_ s.st (periodNode pwm) OFlag.O_WRONLY).ret).err,
          s.trace ++ [Call.open_ (periodNode pwm) OFlag.O_WRONLY,
            Call.write (c.open_ s.st (periodNode pwm) OFlag.O_WRONLY).ret (valueBytes v),
            Call.close (c.open_ s.st (periodNode pwm) OFlag.O_WRONLY).ret]⟩, pwm, 0⟩ := by
    intro s v
    simp [pwm_set_period, periodNode, valueBytes, not_lt.mpr (hopen _ _ _),
      not_lt.mpr (hwrite _ _ _), not_lt.mpr (hclose _ _)]
  have setD : ∀ (s : Sys σ) (v : Int), pwm_set_duty c s pwm v =
      ⟨⟨(c.close (c.write (c.open_ s.st (dutyNode pwm) OFlag.O_WRONLY).st
            (c.open_ s.st (dutyNode pwm) OFlag.O_WRONLY).ret (valueBytes v)).st
            (c.open_ s.st (dutyNode pwm) OFlag.O_WRONLY).ret).st,
          (c.close (c.write (c.open_ s.st (dutyNode pwm) OFlag.O_WRONLY).st
            (c.open_ s.st (dutyNode pwm) OFlag.O_WRONLY).ret (valueBytes v)).st
            (c.open_ s.st (dutyNode pwm) OFlag.O_WRONLY).ret).err,
          s.trace ++ [Call.open_ (dutyNode pwm) OFlag.O_WRONLY,
            Call.write (c.open_ s.st (dutyNode pwm) OFlag.O_WRONLY).ret (valueBytes v),
            Call.close (c.open_ s.st (dutyNode pwm) OFlag.O_WRONLY).ret]⟩, pwm, 0⟩ := by
    intro s v
    simp [pwm_set_duty, dutyNode, valueBytes, not_lt.mpr (hopen _ _ _),
      not_lt.mpr (hwrite _ _ _), not_lt.mpr (hclose _ _)]
  simp only [pwm_config, hget, hold, hpwm, setE, setP, setD, Option.getD_some, if_true,
    lt_self_iff_false, if_false, true_and]
  exact ⟨_, _, _, _, by simp; exact ⟨rfl, rfl, rfl, rfl⟩⟩

/-- A collaborator on which `pwm_get_enable` yields true: the node reads "11". -/
theorem pwm_config_write_order_witness :
    (pwm_config (nodeFs ['1', '1']) ('x', 'y') false sys0 pwm0 1000000 500000 true).ret = 0 :=
  (pwm_config_write_order (nodeFs ['1', '1']) ('x', 'y') false sys0 pwm0 1000000 500000
    (by decide) (by decide) (fun _ _ _ => by simp [nodeFs]) (fun _ _ _ => Int.ofNat_nonneg _)
    (fun _ _ => Int.le_refl 0)).1

end Config

section Poll

/-- The polling loop when the check misses `m` times and then succeeds, with
room for `m + 1` attempts: it is left with `retry_count` advanced by `m`, after
`m` check-and-sleep pairs and one more check. -/
theorem poll_found (c : Collab σ) (path : String) (m : Nat) :
    ∀ (n rc : Nat) (sys : Sys σ), FoundAfter c path m sys.st → m < n →
      (poll c path n rc sys).2 = PollExit.left (rc + m) ∧
      (poll c path n rc sys).1.trace = sys.trace ++ missCalls path m ++ [Call.stat path] := by
  induction m with
  | zero =>
    intro n rc sys h hn
    obtain ⟨n, rfl⟩ : ∃ n', n = n' + 1 := ⟨n - 1, by omega⟩
    simp only [FoundAfter] at h
    simp [poll, h, missCalls]
  | succ m ih =>
    intro n rc sys h hn
    obtain ⟨n, rfl⟩ : ∃ n', n = n' + 1 := ⟨n - 1, by omega⟩
    obtain ⟨⟨hneg, herr⟩, hrest⟩ := h
    have hne : (c.stat sys.st path).ret ≠ 0 := by omega
    have := ih n (rc + 1) (sys_usleep c (sys_stat c sys path).1 PWM_EXPORT_STAT_DELAY) hrest
      (by omega)
    have hcond : ¬ ((c.stat sys.st path).ret < 0 ∧ (c.stat sys.st path).err ≠ ENOENT) :=
      fun hc => hc.2 herr
    simp only [poll, sys_stat_ret, hne, if_false, sys_stat_sys, hcond]
    simp only [sys_stat_sys] at this
    refine ⟨by rw [this.1]; congr 1; omega, ?_⟩
    rw [this.2]
    simp [sys_usleep, missCalls]

/-- The polling loop when all of its `n` attempts miss: it runs to the end, with
`retry_count` advanced by `n`, after `n` check-and-sleep pairs. -/
theorem poll_all_miss (c : Collab σ) (path : String) (n : Nat) :
    ∀ (rc : Nat) (sys : Sys σ), AllMiss c path n sys.st →
      (poll c path n rc sys).2 = PollExit.left (rc + n) ∧
      (poll c path n rc sys).1.trace = sys.trace ++ missCalls path n := by
  induction n with
  | zero =>
    intro rc sys _
    simp [poll, missCalls]
  | succ n ih =>
    intro rc sys h
    obtain ⟨⟨hneg, herr⟩, hrest⟩ := h
    have hne : (c.stat sys.st path).ret ≠ 0 := by omega
    have := ih (rc + 1) (sys_usleep c (sys_stat c sys path).1 PWM_EXPORT_STAT_DELAY) hrest
    have hcond : ¬ ((c.stat sys.st path).ret < 0 ∧ (c.stat sys.st path).err ≠ ENOENT) :=
      fun hc => hc.2 herr
    simp only [poll, sys_stat_ret, hne, if_false, sys_stat_sys, hcond]
    simp only [sys_stat_sys] at this
    refine ⟨by rw [this.1]; congr 1; omega, ?_⟩
    rw [this.2]
    simp [sys_usleep, missCalls]

theorem missCalls_count_stat (path : String) (n : Nat) :
    (missCalls path n).count (Call.stat path) = n := by
  induction n with
  | zero => rfl
  | succ n ih => simp [missCalls, ih]

theorem missCalls_count_usleep (path : String) (n : Nat) :
    (missCalls path n).count (Call.usleep PWM_EXPORT_STAT_DELAY) = n := by
  induction n with
  | zero => rfl
  | succ n ih => simp [missCalls, ih]

end Poll

section ExportPoll

/-- Once the export has succeeded, `pwm_open` is its polling loop followed by the
test of `retry_count`. -/
theorem pwm_open_after_export (c : Collab σ) (sys : Sys σ) (pwm : pwm_handle) (chip id : Nat)
    (hroot : 0 ≤ (c.stat sys.st rootPath).ret)
    (hchip : 0 ≤ (c.stat (afterRoot c sys.st) (chipPath chip)).ret)
    (habsent : (c.stat (afterChip c sys.st chip) (channelPath chip id)).ret < 0)
    (hopen : 0 ≤ (exportOpen c sys.st chip id).ret)
    (hwrite : 0 ≤ (exportWrite c sys.st chip id).ret)
    (hclose : 0 ≤ (exportClose c sys.st chip id).ret) :
    pwm_open c sys pwm chip id =
      match (poll c (channelPath chip id) PWM_EXPORT_STAT_RETRIES 0 (pollStart c sys chip id)).2
      with
      | PollExit.fatal =>
        fail c (poll c (channelPath chip id) PWM_EXPORT_STAT_RETRIES 0 (pollStart c sys chip id)).1
          pwm PWM_ERROR_EXPORT
          (poll c (channelPath chip id) PWM_EXPORT_STAT_RETRIES 0
            (pollStart c sys chip id)).1.errno
          ("Exporting PWM: stat 'pwm" ++ fmt_d id ++ "/'")
      | PollExit.left retry_count =>
        if retry_count = PWM_EXPORT_STAT_RETRIES then
          fail c
            (poll c (channelPath chip id) PWM_EXPORT_STAT_RETRIES 0 (pollStart c sys chip id)).1
            pwm PWM_ERROR_EXPORT 0
            ("Exporting PWM: waiting for 'pwmchi" ++ fmt_d chip ++ "/pwm" ++ fmt_d id
              ++ "' timed out")
        else
          ⟨(poll c (channelPath chip id) PWM_EXPORT_STAT_RETRIES 0 (pollStart c sys chip id)).1,
            ⟨chip, id, ⟨0, ""⟩⟩, 0⟩ := by
  simp only [afterRoot, afterChip, exportOpen, exportWrite, exportClose, afterChannel, rootPath,
    chipPath, channelPath, exportPath, exportBytes] at *
  simp only [pwm_open, sys_stat_ret, not_lt.mpr hroot, not_lt.mpr hchip, habsent,
    not_lt.mpr hopen, not_lt.mpr hwrite, not_lt.mpr hclose, if_false, if_true, sys_stat_sys,
    sys_open_ret, sys_open_sys, sys_write_ret, sys_write_sys, sys_close_ret, sys_close_sys]
  simp [pollStart, exportCalls, exportClose, exportWrite, exportOpen, afterChannel, afterChip,
    afterRoot, rootPath, chipPath, channelPath, exportPath, exportBytes]

/-- C2. The root and chip surfaces exist, the channel surface is absent at the
first check, and the open, write and close of the export node succeed.  If the
polling check then reports "not found" `k - 1` times and succeeds at attempt `k`
(`1 ≤ k ≤ 10`), `pwm_open` returns 0 and, after the export, has issued exactly
`k` existence checks of the channel surface and `k - 1` sleeps of 100000
microseconds, alternating.  If the polling check reports "not found" ten times,
`pwm_open` returns `PWM_ERROR_EXPORT` with error code 0 and the "timed out"
message, after exactly ten polling checks. -/
theorem pwm_open_export_poll (c : Collab σ) (sys : Sys σ) (pwm : pwm_handle) (chip id k : Nat)
    (hk : 1 ≤ k ∧ k ≤ PWM_EXPORT_STAT_RETRIES)
    (hroot : 0 ≤ (c.stat sys.st rootPath).ret)
    (hchip : 0 ≤ (c.stat (afterRoot c sys.st) (chipPath chip)).ret)
    (habsent : (c.stat (afterChip c sys.st chip) (channelPath chip id)).ret < 0)
    (hopen : 0 ≤ (exportOpen c sys.st chip id).ret)
    (hwrite : 0 ≤ (exportWrite c sys.st chip id).ret)
    (hclose : 0 ≤ (exportClose c sys.st chip id).ret) :
    (FoundAfter c (channelPath chip id) (k - 1) (exportClose c sys.st chip id).st →
      (pwm_open c sys pwm chip id).ret = 0 ∧
      (pwm_open c sys pwm chip id).sys.trace =
        sys.trace ++ exportCalls c sys.st chip id ++
          (missCalls (channelPath chip id) (k - 1) ++ [Call.stat (channelPath chip id)]) ∧
      (missCalls (channelPath chip id) (k - 1) ++ [Call.stat (channelPath chip id)]).count
        (Call.stat (channelPath chip id)) = k ∧
      (missCalls (channelPath chip id) (k - 1) ++ [Call.stat (channelPath chip id)]).count
        (Call.usleep 100000) = k - 1 ∧
      (missCalls (channelPath chip id) (k - 1) ++ [Call.stat (channelPath chip id)]).length
        = k + (k - 1)) ∧
    (AllMiss c (channelPath chip id) PWM_EXPORT_STAT_RETRIES (exportClose c sys.st chip id).st →
      (pwm_open c sys pwm chip id).ret = PWM_ERROR_EXPORT ∧
      (pwm_open c sys pwm chip id).pwm.error.c_errno = 0 ∧
      (pwm_open c sys pwm chip id).pwm.error.errmsg =
        snprintf 96 ("Exporting PWM: waiting for 'pwmchi" ++ fmt_d chip ++ "/pwm" ++ fmt_d id
          ++ "' timed out") ∧
      (pwm_open c sys pwm chip id).sys.trace =
        sys.trace ++ exportCalls c sys.st chip id ++ missCalls (channelPath chip id) 10 ∧
      (missCalls (channelPath chip id) 10).count (Call.stat (channelPath chip id)) = 10) := by
  have hrun := pwm_open_after_export c sys pwm chip id hroot hchip habsent hopen hwrite hclose
  have hl : ∀ (p : String) (n : Nat), (missCalls p n).length = n + n := by
    intro p n
    induction n with
    | zero => rfl
    | succ n ih => simp [missCalls, ih]; omega
  constructor
  · intro hfound
    have hp := poll_found c (channelPath chip id) (k - 1) PWM_EXPORT_STAT_RETRIES 0
      (pollStart c sys chip id) hfound (by omega)
    have hk10 : ¬ (0 + (k - 1) = PWM_EXPORT_STAT_RETRIES) := by
      simp only [PWM_EXPORT_STAT_RETRIES] at hk ⊢
      omega
    rw [hp.1] at hrun
    simp only [hk10, if_false] at hrun
    refine ⟨by rw [hrun], ?_, ?_, ?_, ?_⟩
    · rw [hrun]
      simp only [hp.2]
      simp [pollStart]
    · rw [List.count_append, missCalls_count_stat]
      simp
      omega
    · rw [List.count_append]
      have := missCalls_count_usleep (channelPath chip id) (k - 1)
      simp only [PWM_EXPORT_STAT_DELAY] at this
      rw [this]
      simp
    · rw [List.length_append, hl]
      simp
      omega
  · intro hmiss
    have hp := poll_all_miss c (channelPath chip id) PWM_EXPORT_STAT_RETRIES 0
      (pollStart c sys chip id) hmiss
    rw [hp.1] at hrun
    simp only [Nat.zero_add, if_true] at hrun
    refine ⟨by rw [hrun, fail_ret], by rw [hrun, fail_c_errno], ?_, ?_, ?_⟩
    · rw [hrun]
      simp [fail, _pwm_error]
    · rw [hrun, fail_sys, hp.2]
      simp [pollStart, PWM_EXPORT_STAT_RETRIES]
    · exact missCalls_count_stat _ 10

/-- Chip 0, channel 0: the surface appears at the third polling attempt on one
collaborator and not within ten attempts on another. -/
theorem pwm_open_export_poll_witness :
    ((pwm_open (appearFs (channelPath 0 0) 3) sysN pwm0 0 0).ret = 0 ∧
      (pwm_open (appearFs (channelPath 0 0) 3) sysN pwm0 0 0).sys.trace =
        [Call.stat "/sys/class/pwm", Call.stat "/sys/class/pwm/pwmchip0",
          Call.stat "/sys/class/pwm/pwmchip0/pwm0",
          Call.open_ "/sys/class/pwm/pwmchip0/export" OFlag.O_WRONLY,
          Call.write 3 ['0', NUL], Call.close 3,
          Call.stat "/sys/class/pwm/pwmchip0/pwm0", Call.usleep 100000,
          Call.stat "/sys/class/pwm/pwmchip0/pwm0", Call.usleep 100000,
          Call.stat "/sys/class/pwm/pwmchip0/pwm0"]) ∧
    ((pwm_open (appearFs (channelPath 0 0) 11) sysN pwm0 0 0).ret = PWM_ERROR_EXPORT ∧
      (pwm_open (appearFs (channelPath 0 0) 11) sysN pwm0 0 0).pwm.error =
        ⟨0, "Exporting PWM: waiting for 'pwmchi0/pwm0' timed out"⟩) :=
  have h3 := (pwm_open_export_poll (appearFs (channelPath 0 0) 3) sysN pwm0 0 0 3
    (by decide) (by decide) (by decide) (by decide) (by decide) (by decide) (by decide)).1
    (by simp [FoundAfter, NotFound, afterMiss, exportClose, exportWrite, exportOpen,
      afterChannel, afterChip, afterRoot, appearFs, sysN]; decide)
  have h11 := (pwm_open_export_poll (appearFs (channelPath 0 0) 11) sysN pwm0 0 0 1
    (by decide) (by decide) (by decide) (by decide) (by decide) (by decide) (by decide)).2
    (by simp [AllMiss, NotFound, afterMiss, exportClose, exportWrite, exportOpen,
      afterChannel, afterChip, afterRoot, appearFs, sysN, PWM_EXPORT_STAT_RETRIES]; decide)
  ⟨⟨h3.1, by decide⟩, ⟨h11.1, by decide⟩⟩

end ExportPoll

section Describe

theorem pwm_get_enable_ids (c : Collab σ) (junk : Char × Char) (sys : Sys σ)
    (pwm : pwm_handle) (o : Option Bool) :
    (pwm_get_enable c junk sys pwm o).1.pwm.pwm_chip_id = pwm.pwm_chip_id ∧
    (pwm_get_enable c junk sys pwm o).1.pwm.pwm_id = pwm.pwm_id := by
  cases o with
  | none => simp [pwm_get_enable]
  | some b =>
    simp only [pwm_get_enable]
    split_ifs <;> simp

theorem pwm_get_duty_ids (fuel : Nat) (c : Collab σ) (sys : Sys σ) (pwm : pwm_handle)
    (o : Option Int) (r : Out σ × Option Int) (hr : pwm_get_duty fuel c sys pwm o = some r) :
    r.1.pwm.pwm_chip_id = pwm.pwm_chip_id ∧ r.1.pwm.pwm_id = pwm.pwm_id := by
  cases o with
  | none =>
    simp only [pwm_get_duty] at hr
    cases hr
    simp
  | some v =>
    simp only [pwm_get_duty] at hr
    split_ifs at hr
    · cases hr; simp
    · split at hr
      · cases hr
      · split_ifs at hr
        · cases hr; simp
        · cases hr; simp
        · split at hr <;> cases hr <;> simp

theorem pwm_get_period_ids (fuel : Nat) (c : Collab σ) (sys : Sys σ) (pwm : pwm_handle)
    (o : Option Int) (r : Out σ × Option Int) (hr : pwm_get_period fuel c sys pwm o = some r) :
    r.1.pwm.pwm_chip_id = pwm.pwm_chip_id ∧ r.1.pwm.pwm_id = pwm.pwm_id := by
  cases o with
  | none =>
    simp only [pwm_get_period] at hr
    cases hr
    simp
  | some v =>
    simp only [pwm_get_period] at hr
    split_ifs at hr
    · cases hr; simp
    · split at hr
      · cases hr
      · split_ifs at hr
        · cases hr; simp
        · cases hr; simp
        · split at hr <;> cases hr <;> simp

/-- A getter that fails leaves its output location alone (`pwm_get_enable`). -/
theorem pwm_get_enable_keeps_output (c : Collab σ) (junk : Char × Char) (sys : Sys σ)
    (pwm : pwm_handle) (b : Bool) (h : (pwm_get_enable c junk sys pwm (some b)).1.ret < 0) :
    (pwm_get_enable c junk sys pwm (some b)).2 = some b := by
  revert h
  simp only [pwm_get_enable]
  split_ifs <;> simp

/-- A getter that fails leaves its output location alone (`pwm_get_duty`). -/
theorem pwm_get_duty_keeps_output (fuel : Nat) (c : Collab σ) (sys : Sys σ) (pwm : pwm_handle)
    (v : Int) (r : Out σ × Option Int) (hr : pwm_get_duty fuel c sys pwm (some v) = some r)
    (h : r.1.ret < 0) : r.2 = some v := by
  simp only [pwm_get_duty] at hr
  split_ifs at hr
  · cases hr; rfl
  · split at hr
    · cases hr
    · split_ifs at hr
      · cases hr; rfl
      · cases hr; rfl
      · split at hr <;> cases hr
        · simp at h
        · rfl

/-- A getter that fails leaves its output location alone (`pwm_get_period`). -/
theorem pwm_get_period_keeps_output (fuel : Nat) (c : Collab σ) (sys : Sys σ)
    (pwm : pwm_handle) (v : Int) (r : Out σ × Option Int)
    (hr : pwm_get_period fuel c sys pwm (some v) = some r) (h : r.1.ret < 0) : r.2 = some v := by
  simp only [pwm_get_period] at hr
  split_ifs at hr
  · cases hr; rfl
  · split at hr
    · cases hr
    · split_ifs at hr
      · cases hr; rfl
      · cases hr; rfl
      · split at hr <;> cases hr
        · simp at h
        · rfl

/-- When no read returns `-EINTR` as its value, `pwm_get_duty` returns. -/
theorem pwm_get_duty_returns (fuel : Nat) (c : Collab σ) (sys : Sys σ) (pwm : pwm_handle)
    (o : Option Int) (hread : ∀ s fd n, (c.read s fd n).res.ret n ≠ -EINTR) :
    ∃ r, pwm_get_duty (fuel + 1) c sys pwm o = some r := by
  cases o with
  | none => exact ⟨_, rfl⟩
  | some v =>
    simp only [pwm_get_duty]
    split_ifs
    · exact ⟨_, rfl⟩
    · rw [read_retry_once c _ 31 fuel _ (hread _ _ _)]
      simp only
      split_ifs
      · exact ⟨_, rfl⟩
      · exact ⟨_, rfl⟩
      · split <;> exact ⟨_, rfl⟩

/-- When no read returns `-EINTR` as its value, `pwm_get_period` returns. -/
theorem pwm_get_period_returns (fuel : Nat) (c : Collab σ) (sys : Sys σ) (pwm : pwm_handle)
    (o : Option Int) (hread : ∀ s fd n, (c.read s fd n).res.ret n ≠ -EINTR) :
    ∃ r, pwm_get_period (fuel + 1) c sys pwm o = some r := by
  cases o with
  | none => exact ⟨_, rfl⟩
  | some v =>
    simp only [pwm_get_period]
    split_ifs
    · exact ⟨_, rfl⟩
    · rw [read_retry_once c _ 31 fuel _ (hread _ _ _)]
      simp only
      split_ifs
      · exact ⟨_, rfl⟩
      · exact ⟨_, rfl⟩
      · split <;> exact ⟨_, rfl⟩

theorem pwm_get_enable_unavailable (c : Collab σ) (junk : Char × Char) (sys : Sys σ)
    (pwm : pwm_handle) (b : Bool) (h : Unavailable c) :
    (pwm_get_enable c junk sys pwm (some b)).2 = some b := by
  rcases h with h | h
  · simp [pwm_get_enable, h]
  · obtain ⟨hneg, _⟩ := h (c.open_ sys.st (enableNode pwm) OFlag.O_RDONLY).st
      (c.open_ sys.st (enableNode pwm) OFlag.O_RDONLY).ret 2
    simp only [enableNode] at hneg
    simp only [pwm_get_enable, sys_read_res, sys_open_sys, sys_open_ret, hneg, if_true]
    split_ifs <;> rfl

theorem pwm_get_duty_unavailable (fuel : Nat) (c : Collab σ) (sys : Sys σ) (pwm : pwm_handle)
    (v : Int) (h : Unavailable c) :
    ∃ r, pwm_get_duty (fuel + 1) c sys pwm (some v) = some r ∧ r.2 = some v := by
  rcases h with h | h
  · simp only [pwm_get_duty, sys_open_ret, h, if_true]
    exact ⟨_, rfl, rfl⟩
  · simp only [pwm_get_duty]
    split_ifs
    · exact ⟨_, rfl, rfl⟩
    · obtain ⟨hneg, hne⟩ := h (sys_open c sys (dutyNodeU pwm) OFlag.O_RDONLY).1.st
        (sys_open c sys (dutyNodeU pwm) OFlag.O_RDONLY).2 31
      simp only [dutyNodeU] at hneg hne
      rw [read_retry_once c _ 31 fuel _ hne]
      simp only [sys_read_res, hneg, if_true]
      exact ⟨_, rfl, rfl⟩

theorem pwm_get_period_unavailable (fuel : Nat) (c : Collab σ) (sys : Sys σ)
    (pwm : pwm_handle) (v : Int) (h : Unavailable c) :
    ∃ r, pwm_get_period (fuel + 1) c sys pwm (some v) = some r ∧ r.2 = some v := by
  rcases h with h | h
  · simp only [pwm_get_period, sys_open_ret, h, if_true]
    exact ⟨_, rfl, rfl⟩
  · simp only [pwm_get_period]
    split_ifs
    · exact ⟨_, rfl, rfl⟩
    · obtain ⟨hneg, hne⟩ := h (sys_open c sys (periodNodeU pwm) OFlag.O_RDONLY).1.st
        (sys_open c sys (periodNodeU pwm) OFlag.O_RDONLY).2 31
      simp only [periodNodeU] at hneg hne
      rw [read_retry_once c _ 31 fuel _ hne]
      simp only [sys_read_res, hneg, if_true]
      exact ⟨_, rfl, rfl⟩

theorem summary_sentinels (pwm : pwm_handle) :
    summary pwm.pwm_chip_id pwm.pwm_id (-1) (-1) false = sentinelSummary pwm := by
  have h1 : fmt_d (-1) = "-1" := by decide
  have h0 : fmt_d 0 = "0" := by decide
  simp only [summary, sentinelSummary, h1, h0, Bool.false_eq_true, if_false,
    String.append_assoc]
  rfl

theorem snprintf_fits (len : Nat) (s : String) (h : s.length < len) : snprintf len s = s := by
  have hl : s.data.length ≤ len - 1 := by
    have : s.data.length = s.length := rfl
    omega
  simp [snprintf, List.take_of_length_le hl]

/-- C8. `pwm_tostring` returns no error code: whenever it returns, its value is
the length of the summary, a non-negative number, and the ids of the handle are
as before.  It does return for every collaborator whose `read` never returns
`-EINTR` as its value.  Whenever its three getter calls fail, for whatever
reason, the buffer receives the text
"PWM pwmchip<chip>/pwm<channel> (duty_ns=-1, period_ns=-1, enable=0)", cut to
`len - 1` characters as `snprintf` does; in particular when every open fails, or
every read fails, it returns with that text and with its length as value, and
the text is whole when `len` exceeds its length. -/
theorem pwm_tostring_best_effort (c : Collab σ) (junk : Char × Char) (sys : Sys σ)
    (pwm : pwm_handle) (str : String) (len fuel : Nat) :
    (∀ r, pwm_tostring fuel c junk sys pwm str len = some r →
      0 ≤ r.1.ret ∧ r.1.pwm.pwm_chip_id = pwm.pwm_chip_id ∧ r.1.pwm.pwm_id = pwm.pwm_id) ∧
    ((∀ s fd n, (c.read s fd n).res.ret n ≠ -EINTR) →
      ∃ r, pwm_tostring (fuel + 1) c junk sys pwm str len = some r) ∧
    (∀ d p,
      pwm_get_duty fuel c (pwm_get_enable c junk sys pwm (some false)).1.sys
        (pwm_get_enable c junk sys pwm (some false)).1.pwm (some (-1)) = some d →
      pwm_get_period fuel c d.1.sys d.1.pwm (some (-1)) = some p →
      (pwm_get_enable c junk sys pwm (some false)).1.ret < 0 → d.1.ret < 0 → p.1.ret < 0 →
      ∃ r, pwm_tostring fuel c junk sys pwm str len = some r ∧
        r.1.ret = ((sentinelSummary pwm).length : Nat) ∧
        r.2 = (if len = 0 then str else snprintf len (sentinelSummary pwm))) ∧
    (Unavailable c →
      ∃ r, pwm_tostring (fuel + 1) c junk sys pwm str len = some r ∧
        r.1.ret = ((sentinelSummary pwm).length : Nat) ∧
        r.2 = (if len = 0 then str else snprintf len (sentinelSummary pwm)) ∧
        ((sentinelSummary pwm).length < len → r.2 = sentinelSummary pwm)) := by
  have hids : ∀ (fuel : Nat) d p,
      pwm_get_duty fuel c (pwm_get_enable c junk sys pwm (some false)).1.sys
        (pwm_get_enable c junk sys pwm (some false)).1.pwm (some (-1)) = some d →
      pwm_get_period fuel c d.1.sys d.1.pwm (some (-1)) = some p →
      p.1.pwm.pwm_chip_id = pwm.pwm_chip_id ∧ p.1.pwm.pwm_id = pwm.pwm_id := by
    intro fuel d p hd hp
    have h1 := pwm_get_enable_ids c junk sys pwm (some false)
    have h2 := pwm_get_duty_ids _ _ _ _ _ _ hd
    have h3 := pwm_get_period_ids _ _ _ _ _ _ hp
    exact ⟨by rw [h3.1, h2.1, h1.1], by rw [h3.2, h2.2, h1.2]⟩
  have hsent : ∀ (fuel : Nat) d p,
      pwm_get_duty fuel c (pwm_get_enable c junk sys pwm (some false)).1.sys
        (pwm_get_enable c junk sys pwm (some false)).1.pwm (some (-1)) = some d →
      pwm_get_period fuel c d.1.sys d.1.pwm (some (-1)) = some p →
      (pwm_get_enable c junk sys pwm (some false)).2 = some false → d.2 = some (-1) →
      p.2 = some (-1) →
      ∃ r, pwm_tostring fuel c junk sys pwm str len = some r ∧
        r.1.ret = ((sentinelSummary pwm).length : Nat) ∧
        r.2 = (if len = 0 then str else snprintf len (sentinelSummary pwm)) := by
    intro fuel d p hd hp hg hd2 hp2
    obtain ⟨i1, i2⟩ := hids fuel d p hd hp
    have ht := summary_sentinels pwm
    simp only [pwm_tostring, hd, hp, hg, hd2, hp2, Option.getD_some, i1, i2, ht]
    exact ⟨_, rfl, rfl, rfl⟩
  refine ⟨?_, ?_, ?_, ?_⟩
  · intro r hr
    simp only [pwm_tostring] at hr
    split at hr
    · cases hr
    · rename_i d hd
      split at hr
      · cases hr
      · rename_i p hp
        cases hr
        exact ⟨Int.ofNat_nonneg _, hids fuel d p hd hp⟩
  · intro hread
    obtain ⟨d, hd⟩ := pwm_get_duty_returns fuel c (pwm_get_enable c junk sys pwm (some false)).1.sys
      (pwm_get_enable c junk sys pwm (some false)).1.pwm (some (-1)) hread
    obtain ⟨p, hp⟩ := pwm_get_period_returns fuel c d.1.sys d.1.pwm (some (-1)) hread
    simp only [pwm_tostring, hd, hp]
    exact ⟨_, rfl⟩
  · intro d p hd hp hg1 hd1 hp1
    exact hsent fuel d p hd hp (pwm_get_enable_keeps_output c junk sys pwm false hg1)
      (pwm_get_duty_keeps_output _ _ _ _ _ _ hd hd1)
      (pwm_get_period_keeps_output _ _ _ _ _ _ hp hp1)
  · intro hfail
    have hg := pwm_get_enable_unavailable c junk sys pwm false hfail
    obtain ⟨d, hd, hd2⟩ := pwm_get_duty_unavailable fuel c
      (pwm_get_enable c junk sys pwm (some false)).1.sys
      (pwm_get_enable c junk sys pwm (some false)).1.pwm (-1) hfail
    obtain ⟨p, hp, hp2⟩ := pwm_get_period_unavailable fuel c d.1.sys d.1.pwm (-1) hfail
    obtain ⟨r, hr, hret, hbuf⟩ := hsent (fuel + 1) d p hd hp hg hd2 hp2
    refine ⟨r, hr, hret, hbuf, ?_⟩
    intro hlen
    have hpos : len ≠ 0 := by omega
    rw [hbuf, if_neg hpos]
    exact snprintf_fits _ _ hlen

/-- On a collaborator where every open fails, a buffer of 64 bytes receives the
whole sentinel text of chip 0, channel 0, and the value returned is its length. -/
theorem pwm_tostring_best_effort_witness :
    ∃ r, pwm_tostring 1 deadFs ('x', 'y') sys0 pwm0 "" 64 = some r ∧
      r.2 = "PWM pwmchip0/pwm0 (duty_ns=-1, period_ns=-1, enable=0)" ∧ r.1.ret = 54 :=
  have h := (pwm_tostring_best_effort deadFs ('x', 'y') sys0 pwm0 "" 64 0).2.2.2
    (Or.inl (fun _ _ _ => by simp [deadFs]))
  match h with
  | ⟨r, h1, h2, _, h4⟩ => ⟨r, h1, (h4 (by decide)).trans (by decide), h2.trans (by decide)⟩

end Describe

section Decimal

/-- The character of a decimal digit has code `48 + d`. -/
theorem digitChar_toNat (d : Nat) (h : d < 10) : (digitChar d).toNat = d + 48 := by
  interval_cases d <;> rfl

theorem isdigit_digitChar (d : Nat) (h : d < 10) : isdigit (digitChar d) = true := by
  simp only [isdigit, digitChar_toNat d h, Bool.and_eq_true, decide_eq_true_eq]
  omega

theorem parseDigits_append (l : List Char) (ch : Char) :
    parseDigits (l ++ [ch]) = parseDigits l * 10 + (ch.toNat - 48) := by
  simp [parseDigits, List.foldl_append]

/-- The digits of `n` are digits, there is at least one, they read back as `n`,
and there are at most `e` of them when `n < 10 ^ e`. -/
theorem natDigits_spec (fuel : Nat) : ∀ n, n < fuel →
    (∀ ch ∈ natDigits fuel n, isdigit ch = true) ∧ natDigits fuel n ≠ [] ∧
    parseDigits (natDigits fuel n) = n ∧
    (∀ e, 0 < e → n < 10 ^ e → (natDigits fuel n).length ≤ e) := by
  induction fuel with
  | zero => intro n h; omega
  | succ fuel ih =>
    intro n hn
    by_cases h10 : n < 10
    · simp only [natDigits, h10, if_true]
      refine ⟨?_, by simp, ?_, ?_⟩
      · intro ch hch
        simp only [List.mem_singleton] at hch
        rw [hch]
        exact isdigit_digitChar n h10
      · simp [parseDigits, digitChar_toNat n h10]
      · intro e he _
        simp
        omega
    · simp only [natDigits, h10, if_false]
      have hlt : n / 10 < fuel := by omega
      obtain ⟨h1, h2, h3, h4⟩ := ih (n / 10) hlt
      have hmod : n % 10 < 10 := Nat.mod_lt _ (by omega)
      refine ⟨?_, by simp, ?_, ?_⟩
      · intro ch hch
        rcases List.mem_append.mp hch with hch | hch
        · exact h1 ch hch
        · simp only [List.mem_singleton] at hch
          rw [hch]
          exact isdigit_digitChar _ hmod
      · rw [parseDigits_append, h3, digitChar_toNat _ hmod]
        omega
      · intro e he hne
        obtain ⟨e, rfl⟩ : ∃ e', e = e' + 1 := ⟨e - 1, by omega⟩
        have he0 : 0 < e := by
          rcases Nat.eq_zero_or_pos e with h0 | h0
          · subst h0
            simp at hne
            omega
          · exact h0
        have : n / 10 < 10 ^ e := by
          rw [Nat.div_lt_iff_lt_mul (by omega)]
          rw [pow_succ] at hne
          exact hne
        have := h4 e he0 this
        simp
        omega

theorem takeWhile_append_stop (p : Char → Bool) (l : List Char) (x : Char) (r : List Char)
    (hl : ∀ a ∈ l, p a = true) (hx : p x = false) : (l ++ x :: r).takeWhile p = l := by
  induction l with
  | nil => simp [List.takeWhile, hx]
  | cons a l ih =>
    have ha : p a = true := hl a (List.mem_cons_self _ _)
    rw [List.cons_append, List.takeWhile_cons, if_pos ha,
      ih (fun b hb => hl b (List.mem_cons_of_mem _ hb))]

theorem takeWhile_all (p : Char → Bool) (l : List Char) (hl : ∀ a ∈ l, p a = true) :
    l.takeWhile p = l := by
  induction l with
  | nil => rfl
  | cons a l ih =>
    have ha : p a = true := hl a (List.mem_cons_self _ _)
    rw [List.takeWhile_cons, if_pos ha, ih (fun b hb => hl b (List.mem_cons_of_mem _ hb))]

theorem isdigit_not_NUL (ch : Char) (h : isdigit ch = true) : (ch != NUL) = true := by
  simp only [isdigit, Bool.and_eq_true, decide_eq_true_eq] at h
  simp only [bne_iff_ne, ne_eq]
  intro hc
  rw [hc] at h
  have : NUL.toNat = 0 := rfl
  omega

theorem isdigit_not_space (ch : Char) (h : isdigit ch = true) : isspace ch = false := by
  simp only [isdigit, Bool.and_eq_true, decide_eq_true_eq] at h
  simp only [isspace, Bool.or_eq_false_iff, decide_eq_false_iff_not, Bool.and_eq_false_iff]
  omega

/-- What `sscanf` reads from a buffer holding digits and the terminator. -/
theorem sscanf_d_digits (ds rest : List Char) (hds : ∀ ch ∈ ds, isdigit ch = true)
    (hne : ds ≠ []) :
    sscanf_d (ds ++ NUL :: rest) = some (toInt32 (clampLong (parseDigits ds))) := by
  have hc : cstr (ds ++ NUL :: rest) = ds :=
    takeWhile_append_stop _ ds NUL rest (fun a ha => isdigit_not_NUL a (hds a ha)) (by decide)
  obtain ⟨a, t, rfl⟩ := List.exists_cons_of_ne_nil hne
  have ha : isdigit a = true := hds a (List.mem_cons_self _ _)
  have hsp : isspace a = false := isdigit_not_space a ha
  have hdrop : (a :: t).dropWhile isspace = a :: t := by
    simp [List.dropWhile, hsp]
  have hminus : a ≠ '-' := by
    intro h
    rw [h] at ha
    exact absurd ha (by decide)
  have hplus : a ≠ '+' := by
    intro h
    rw [h] at ha
    exact absurd ha (by decide)
  have htw : (a :: t).takeWhile isdigit = a :: t := takeWhile_all _ _ hds
  have hs : scanSign (a :: t) = (false, a :: t) := by simp [scanSign, hminus, hplus]
  unfold sscanf_d
  simp only [hc, hdrop, hs, htw]
  simp

/-- What `sscanf` reads from a buffer holding a minus sign, digits and the
terminator. -/
theorem sscanf_d_minus_digits (ds rest : List Char) (hds : ∀ ch ∈ ds, isdigit ch = true)
    (hne : ds ≠ []) :
    sscanf_d ('-' :: ds ++ NUL :: rest) = some (toInt32 (clampLong (-(parseDigits ds : Int)))) := by
  have hc : cstr ('-' :: ds ++ NUL :: rest) = '-' :: ds := by
    have := takeWhile_append_stop (fun ch => ch != NUL) ('-' :: ds) NUL rest (by
      intro a ha
      rcases List.mem_cons.mp ha with h | h
      · rw [h]; decide
      · exact isdigit_not_NUL a (hds a h)) (by decide)
    simpa [cstr] using this
  have hdrop : ('-' :: ds).dropWhile isspace = '-' :: ds := by
    have : isspace '-' = false := by decide
    simp [List.dropWhile, this]
  have htw : ds.takeWhile isdigit = ds := takeWhile_all _ _ hds
  have hs : scanSign ('-' :: ds) = (true, ds) := by simp [scanSign]
  unfold sscanf_d
  simp only [hc, hdrop, hs, htw]
  simp [hne]

theorem toInt32_of_range (d : Int) (hlo : -2147483648 ≤ d) (hhi : d < 2147483648) :
    toInt32 d = d := by
  unfold toInt32
  omega

theorem clampLong_of_range (d : Int) (hlo : -2147483648 ≤ d) (hhi : d < 2147483648) :
    clampLong d = d := by
  unfold clampLong
  split_ifs <;> omega

/-- The bytes a setter writes for a 32-bit value are at most 12, and `sscanf`
reads the value back from them. -/
theorem sscanf_d_valueBytes (d : Int) (hlo : -2147483648 ≤ d) (hhi : d < 2147483648) :
    (valueBytes d).length ≤ 31 ∧ sscanf_d (valueBytes d ++ [NUL]) = some d := by
  have h32 := toInt32_of_range d hlo hhi
  by_cases hneg : d < 0
  · obtain ⟨h1, h2, h3, h4⟩ := natDigits_spec ((-d).toNat + 1) (-d).toNat (by omega)
    have hlen := h4 10 (by omega) (by omega)
    have htext : (fmt_d d).data = '-' :: natDigits ((-d).toNat + 1) (-d).toNat := by
      simp only [fmt_d, h32, hneg, if_true, natStr, String.data_append]
      rfl
    have hfit : (snprintf 32 (fmt_d d)).data = (fmt_d d).data := by
      simp only [snprintf]
      apply List.take_of_length_le
      rw [htext, List.length_cons]
      omega
    have hv : valueBytes d = '-' :: natDigits ((-d).toNat + 1) (-d).toNat ++ [NUL] := by
      simp only [valueBytes, hfit, htext]
    refine ⟨by rw [hv]; simp; omega, ?_⟩
    rw [hv, List.append_assoc]
    have := sscanf_d_minus_digits _ [NUL] h1 h2
    simp only [List.singleton_append] at this ⊢
    rw [this, h3]
    have hd : (-((-d).toNat : Int)) = d := by omega
    rw [hd, clampLong_of_range d hlo hhi, h32]
  · obtain ⟨h1, h2, h3, h4⟩ := natDigits_spec (d.toNat + 1) d.toNat (by omega)
    have hlen := h4 10 (by omega) (by omega)
    have htext : (fmt_d d).data = natDigits (d.toNat + 1) d.toNat := by
      simp only [fmt_d, h32, hneg, if_false, natStr]
    have hfit : (snprintf 32 (fmt_d d)).data = (fmt_d d).data := by
      simp only [snprintf]
      apply List.take_of_length_le
      rw [htext]
      omega
    have hv : valueBytes d = natDigits (d.toNat + 1) d.toNat ++ [NUL] := by
      simp only [valueBytes, hfit, htext]
    refine ⟨by rw [hv]; simp; omega, ?_⟩
    rw [hv, List.append_assoc]
    have := sscanf_d_digits _ [NUL] h1 h2
    simp only [List.singleton_append] at this ⊢
    rw [this, h3]
    have hd : ((d.toNat : Nat) : Int) = d := by omega
    rw [hd, clampLong_of_range d hlo hhi, h32]

end Decimal

section RoundTrip

/-- For an id below `2 ^ 31` the conversions `%d` and `%u` print the same text. -/
theorem fmt_d_eq_fmt_u (n : Nat) (h : n < 2147483648) : fmt_d (n : Int) = fmt_u n := by
  have h32 : toInt32 (n : Int) = n := toInt32_of_range _ (by omega) (by omega)
  have hmod : n % 4294967296 = n := Nat.mod_eq_of_lt (by omega)
  have hneg : ¬ ((n : Int) < 0) := by omega
  simp only [fmt_d, fmt_u, h32, hneg, if_false, hmod, Int.toNat_ofNat]

/-- For ids below `2 ^ 31` the setter and the getter of the duty cycle name the
same node. -/
theorem dutyNode_eq_dutyNodeU (pwm : pwm_handle) (h1 : pwm.pwm_chip_id < 2147483648)
    (h2 : pwm.pwm_id < 2147483648) : dutyNode pwm = dutyNodeU pwm := by
  simp only [dutyNode, dutyNodeU, fmt_d_eq_fmt_u _ h1, fmt_d_eq_fmt_u _ h2]

/-- For a chip id from `2 ^ 31` on, the setter (`%d`) and the getter (`%u`) of the
duty cycle name different nodes. -/
theorem dutyNode_ne_dutyNodeU_large :
    dutyNode ⟨2147483648, 0, ⟨0, ""⟩⟩ = "/sys/class/pwm/pwmchip-2147483648/pwm0/duty_cycle" ∧
    dutyNodeU ⟨2147483648, 0, ⟨0, ""⟩⟩ = "/sys/class/pwm/pwmchip2147483648/pwm0/duty_cycle" := by
  decide

/-- C5. For every 32-bit signed `d`: when the open, write and close of
`pwm_set_duty d` succeed, and in the `pwm_get_duty` that follows the open and
the close succeed and the read returns exactly the bytes that were written
(decimal text and terminator), both calls return 0 and `pwm_get_duty` stores
`d`. -/
theorem set_duty_get_duty_roundtrip (c : Collab σ) (sys : Sys σ) (pwm : pwm_handle) (d : Int)
    (out : Int) (fuel : Nat) (hlo : -2147483648 ≤ d) (hhi : d < 2147483648) :
    let o1 := c.open_ sys.st (dutyNode pwm) OFlag.O_WRONLY
    let w := c.write o1.st o1.ret (valueBytes d)
    let c1 := c.close w.st o1.ret
    let o2 := c.open_ c1.st (dutyNodeU pwm) OFlag.O_RDONLY
    let r := c.read o2.st o2.ret 31
    let c2 := c.close r.st o2.ret
    0 ≤ o1.ret → 0 ≤ w.ret → 0 ≤ c1.ret → 0 ≤ o2.ret → r.res = ReadRes.data (valueBytes d) →
    0 ≤ c2.ret →
    (pwm_set_duty c sys pwm d).ret = 0 ∧
    ∃ g, pwm_get_duty (fuel + 1) c (pwm_set_duty c sys pwm d).sys (pwm_set_duty c sys pwm d).pwm
        (some out) = some g ∧ g.1.ret = 0 ∧ g.2 = some d := by
  intro o1 w c1 o2 r c2 ho1 hw hc1 ho2 hr hc2
  obtain ⟨hlen, hscan⟩ := sscanf_d_valueBytes d hlo hhi
  simp only [o1, w, c1, o2, r, c2, dutyNode, dutyNodeU, valueBytes] at ho1 hw hc1 ho2 hr hc2
  have hset : pwm_set_duty c sys pwm d =
      ⟨⟨(c.close (c.write (c.open_ sys.st (dutyNode pwm) OFlag.O_WRONLY).st
            (c.open_ sys.st (dutyNode pwm) OFlag.O_WRONLY).ret (valueBytes d)).st
            (c.open_ sys.st (dutyNode pwm) OFlag.O_WRONLY).ret).st,
          (c.close (c.write (c.open_ sys.st (dutyNode pwm) OFlag.O_WRONLY).st
            (c.open_ sys.st (dutyNode pwm) OFlag.O_WRONLY).ret (valueBytes d)).st
            (c.open_ sys.st (dutyNode pwm) OFlag.O_WRONLY).ret).err,
          sys.trace ++ [Call.open_ (dutyNode pwm) OFlag.O_WRONLY,
            Call.write (c.open_ sys.st (dutyNode pwm) OFlag.O_WRONLY).ret (valueBytes d),
            Call.close (c.open_ sys.st (dutyNode pwm) OFlag.O_WRONLY).ret]⟩, pwm, 0⟩ := by
    simp [pwm_set_duty, dutyNode, valueBytes, not_lt.mpr ho1, not_lt.mpr hw, not_lt.mpr hc1]
  rw [hset]
  refine ⟨rfl, ?_⟩
  have hstored : (ReadRes.data (valueBytes d)).stored 31 = valueBytes d := by
    simp only [ReadRes.stored]
    exact List.take_of_length_le hlen
  simp only [valueBytes, dutyNode] at hstored hscan
  simp only [pwm_get_duty, sys_open_ret, sys_open_sys, dutyNode, valueBytes, not_lt.mpr ho2,
    if_false]
  rw [read_retry_once c _ 31 fuel _ (by
    simp only [sys_open_sys, hr, ReadRes.ret, EINTR]
    omega)]
  simp only [sys_read_res, sys_read_sys, hr, data_ret_nonneg, if_false, sys_close_ret,
    not_lt.mpr hc2, hstored, hscan]
  exact ⟨_, rfl, rfl, rfl⟩

/-- The value 1500 on a collaborator that returns on `read` the bytes last
written. -/
theorem set_duty_get_duty_roundtrip_witness :
    (pwm_set_duty echoFs sysE pwm0 1500).ret = 0 ∧
    ∃ g, pwm_get_duty 1 echoFs (pwm_set_duty echoFs sysE pwm0 1500).sys
        (pwm_set_duty echoFs sysE pwm0 1500).pwm (some 0) = some g ∧
      g.1.ret = 0 ∧ g.2 = some 1500 :=
  set_duty_get_duty_roundtrip echoFs sysE pwm0 1500 0 0 (by decide) (by decide)
    (by decide) (by decide) (by decide) (by decide) (by decide) (by decide)

end RoundTrip

end Pwm
